import Mathlib

/-!
Verification of the TALON transcript-identification engine (talon/talon.py)
against its natural-language specification.

The Python source is shallowly embedded: dictionaries become association
lists (preserving Python's insertion-order iteration semantics), the
process-shared mutable state (location dict, edge dict, transcript dict,
temporary tables, ID counters) becomes an explicit state record threaded
through the functions, and machine integers are Int with explicit 32-bit
wrap where the source uses ctypes c_int.
-/

namespace Talon

/-- Read/transcript strand. The source represents strands as the strings
"+" and "-" and raises ValueError on anything else; we embed the validated
domain. -/
inductive Strand where
  | plus
  | minus
deriving DecidableEq, Repr

/-- Edge type: the source uses the strings "exon" and "intron". -/
inductive EdgeType where
  | exon
  | intron
deriving DecidableEq, Repr

/-- Position type for permissive end search: the source uses the strings
"start" and "end" and raises ValueError on anything else. -/
inductive PosType where
  | pstart
  | pend
deriving DecidableEq, Repr

abbrev Chrom := String

/-- Immutable per-run parameters (the fields of run_info used by the
classifier core). -/
structure RunInfo where
  cutoff_5p : Int
  cutoff_3p : Int
  build : String
  idpfx : String
  n_places : Nat
  create_novel_spliced_genes : Bool
deriving Repr

/-- compute_delta(orig_pos, new_pos, strand): signed distance of new_pos
from orig_pos with respect to the strand (positive means downstream on the
sense strand). -/
def compute_delta (orig_pos new_pos : Int) (strand : Strand) : Int :=
  let abs_dist := |orig_pos - new_pos|
  match strand with
  | .plus => if new_pos < orig_pos then -1 * abs_dist else abs_dist
  | .minus => if new_pos < orig_pos then abs_dist else -1 * abs_dist

/-! ## Identifier allocator (class Counter)

Counter stores its value in a multiprocessing.Value("i", ...), a shared
C signed 32-bit integer, and increments it under a multiprocessing.Lock.
ctypes performs no overflow checking: storing INT_MAX + 1 silently wraps
to INT_MIN (verified behaviour of mp.Value("i")).  The lock serializes
all increment calls across workers, so any concurrent run is equivalent
to a linear sequence of atomic read-increment-write-return steps; we
therefore model a run of a counter as that linear trace. -/

/-- Wrap an integer to the C signed 32-bit range, as ctypes assignment to
a c_int does. -/
def wrap32 (x : Int) : Int :=
  (x + 2 ^ 31) % 2 ^ 32 - 2 ^ 31

/-- One Counter.increment step: adds one to the shared value (with c_int
wrap-around) and returns the stored result. -/
def counterIncrement (val : Int) : Int :=
  wrap32 (val + 1)

/-- The shared value after k serialized increment calls starting from a
stored value val (val is already in c_int range at rest). -/
def counterAfter (val : Int) : Nat → Int
  | 0 => 0 + val
  | k + 1 => counterIncrement (counterAfter val k)

/-- The value returned by the k-th increment call (1-based), which is the
stored value after that call. -/
def counterReturn (val : Int) (k : Nat) : Int :=
  counterAfter val k

lemma wrap32_idem (x : Int) : wrap32 (wrap32 x) = wrap32 x := by
  unfold wrap32
  omega

lemma wrap32_add_one (x : Int) : wrap32 (wrap32 x + 1) = wrap32 (x + 1) := by
  unfold wrap32
  omega

lemma wrap32_of_range (x : Int) (h1 : -2 ^ 31 ≤ x) (h2 : x < 2 ^ 31) :
    wrap32 x = x := by
  unfold wrap32
  omega

/-- Closed form of the counter trace: after k increments the stored value
is the initial value plus k, wrapped (for k at least one). -/
lemma counterAfter_eq (val : Int) :
    ∀ k : Nat, 1 ≤ k → counterAfter val k = wrap32 (val + k) := by
  intro k hk
  induction k with
  | zero => omega
  | succ n ih =>
    rcases Nat.eq_or_lt_of_le hk with h | h
    · simp only [counterAfter, counterIncrement]
      have : n = 0 := by omega
      subst this
      simp [counterAfter]
    · have hn : 1 ≤ n := by omega
      simp only [counterAfter, counterIncrement, ih hn]
      rw [wrap32_add_one]
      congr 1
      push_cast
      ring

/-! ## Edge-novelty predicates (check_all_exons_known,
check_all_exons_novel, check_all_SJs_known)

These receive the list of interior-edge novelty flags (1 novel, 0 known;
the list alternates intron, exon, intron, ..., intron and excludes the
first and last exon).  check_all_exons_novel returns the Python int 0 in
the length-one case while the other branches return Python bools, so the
embedded return type distinguishes the two (Python truthiness is what the
callers consume). -/

/-- A Python value that is either an int or a bool, as returned by the
check_all_* functions. -/
inductive PyRet where
  | pyInt (n : Int)
  | pyBool (b : Bool)
deriving DecidableEq, Repr

/-- Python truthiness of a PyRet. -/
def PyRet.truthy : PyRet → Bool
  | .pyInt n => n ≠ 0
  | .pyBool b => b

/-- Python slice l[::2] (every second element, starting at index 0). -/
def evenSlice : List Nat → List Nat
  | [] => []
  | [x] => [x]
  | x :: _ :: rest => x :: evenSlice rest

/-- Python slice l[1::2] (every second element, starting at index 1). -/
def oddSlice (l : List Nat) : List Nat :=
  evenSlice (l.drop 1)

/-- check_all_exons_known: interior exons are the elements at odd indices
(novelty[1::2]); with a single entry the function tests that entry. -/
def check_all_exons_known (novelty : List Nat) : PyRet :=
  if novelty.length = 1 then
    .pyBool (novelty.headI = 0)
  else
    let exons := oddSlice novelty
    if exons.sum > 0 then .pyBool false else .pyBool true

/-- check_all_exons_novel: returns the Python int 0 when there is a single
entry (no interior exons to analyze), else a bool. -/
def check_all_exons_novel (novelty : List Nat) : PyRet :=
  if novelty.length = 1 then
    .pyInt 0
  else
    let exons := oddSlice novelty
    if exons.sum ≠ exons.length then .pyBool false else .pyBool true

/-- check_all_SJs_known: introns are the elements at even indices
(novelty[::2]); with a single entry that entry is the single splice
junction. -/
def check_all_SJs_known (novelty : List Nat) : PyRet :=
  if novelty.length = 1 then
    .pyBool (novelty.headI = 0)
  else
    let introns := evenSlice novelty
    if introns.sum > 0 then .pyBool false else .pyBool true

/-- The guard of the NNC branch of identify_transcript (line 1741):
not splice_vertices_known and not fusion and not all_exons_novel, where
all_exons_novel is consumed by Python truthiness. -/
def nnc_branch_guard (splice_vertices_known : Bool) (fusion : Bool)
    (e_novelty : List Nat) : Bool :=
  !splice_vertices_known && !fusion && !(check_all_exons_novel e_novelty).truthy

/-! ## Annotation graph store

Python dicts are embedded as association lists in insertion order:
lookup returns the first (unique) matching key, assignment overwrites in
place if the key exists and appends at the end otherwise — exactly the
iteration-order semantics of Python 3.7+ dicts, which process_FSM and
search_for_ISM rely on. -/

/-- Association-list lookup (Python d[k] / d.get(k)). -/
def alist_get {α β : Type} [DecidableEq α] (k : α) (l : List (α × β)) : Option β :=
  (l.find? (fun e => decide (e.1 = k))).map (fun e => e.2)

/-- Association-list assignment (Python d[k] = v): overwrite in place,
else append at the end. -/
def alist_set {α β : Type} [DecidableEq α] (k : α) (v : β) : List (α × β) → List (α × β)
  | [] => [(k, v)]
  | (k', v') :: rest => if k' = k then (k, v) :: rest else (k', v') :: alist_set k v rest

/-- A row of the location (vertex) store. -/
structure VertexRec where
  location_ID : Nat
  genome_build : String
  chromosome : Chrom
  position : Int
deriving DecidableEq, Repr

/-- location_dict: (chromosome, position) to vertex (the source uses a
nested dict location_dict[chrom][pos]; we flatten the two keys). -/
abbrev LocationDict := List ((Chrom × Int) × VertexRec)

/-- A row of the edge store. -/
structure EdgeRec where
  edge_ID : Nat
  v1 : Nat
  v2 : Nat
  edge_type : EdgeType
  strand : Strand
deriving DecidableEq, Repr

/-- edge_dict: (v1, v2, edge_type) to edge. -/
abbrev EdgeDict := List ((Nat × Nat × EdgeType) × EdgeRec)

/-- An in-memory transcript record (the dict built by create_transcript
and loaded from the annotation at startup).  jn_path is the comma-joined
string of interior edge IDs (None for a monoexonic transcript), exactly
as the source stores it, because process_ISM does string prefix/suffix
comparisons on it. -/
structure TranscriptRec where
  transcript_ID : Nat
  gene_ID : Nat
  jn_path : Option String
  start_exon : Nat
  end_exon : Nat
  start_vertex : Nat
  end_vertex : Nat
  n_exons : Nat
  chromosome : Chrom
  start_pos : Int
  end_pos : Int
deriving DecidableEq, Repr

/-- transcript_dict: frozenset of edge IDs to transcript. -/
abbrev TranscriptDict := List (Finset Nat × TranscriptRec)

/-- A row of the temporary transcript table tmp_t queried by
search_for_overlap_with_gene. -/
structure TRow where
  gene_ID : Nat
  transcript_ID : Nat
  chromosome : Chrom
  min_pos : Int
  max_pos : Int
  strand : Strand
deriving DecidableEq, Repr

/-- A row of the temporary gene table tmp_gene. -/
structure GRow where
  gene_ID : Nat
  chromosome : Chrom
  start_pos : Int
  end_pos : Int
  strand : Strand
deriving DecidableEq, Repr

/-- vertex_2_gene: vertex ID to the set of (gene, strand) pairs using it.
Python stores a set; we keep a list (the classifier's decisions are
insensitive to its order except for reported list order). -/
abbrev V2G := List (Nat × List (Nat × Strand))

/-- gene_starts / gene_ends: gene ID to a dict from known terminus
position to its vertex ID. -/
abbrev GeneLocs := List (Nat × List (Int × Nat))

/-- The mutable state threaded through a worker's classification run:
the per-shard stores plus the shared ID counters (IDs are naturals here;
the 32-bit wrap of the shared c_int is modelled in the Counter section). -/
structure GState where
  locations : LocationDict
  edges : EdgeDict
  tdict : TranscriptDict
  tmp_t : List TRow
  tmp_gene : List GRow
  vertex_counter : Nat
  edge_counter : Nat
  transcript_counter : Nat
  gene_counter : Nat
deriving DecidableEq

/-- search_for_vertex_at_pos. -/
def search_for_vertex_at_pos (chromosome : Chrom) (position : Int)
    (location_dict : LocationDict) : Option VertexRec :=
  alist_get (chromosome, position) location_dict

/-- search_for_edge. -/
def search_for_edge (vertex_1 vertex_2 : Nat) (edge_type : EdgeType)
    (edge_dict : EdgeDict) : Option EdgeRec :=
  alist_get (vertex_1, vertex_2, edge_type) edge_dict

/-- create_vertex: allocates a fresh vertex ID and inserts the vertex. -/
def create_vertex (chromosome : Chrom) (position : Int) (ri : RunInfo)
    (σ : GState) : VertexRec × GState :=
  let new_ID := σ.vertex_counter + 1
  let v : VertexRec :=
    { location_ID := new_ID, genome_build := ri.build, chromosome, position }
  (v, { σ with locations := alist_set (chromosome, position) v σ.locations,
               vertex_counter := new_ID })

/-- create_edge: allocates a fresh edge ID and inserts the edge. -/
def create_edge (vertex_1 vertex_2 : Nat) (edge_type : EdgeType)
    (strand : Strand) (σ : GState) : EdgeRec × GState :=
  let new_ID := σ.edge_counter + 1
  let e : EdgeRec := { edge_ID := new_ID, v1 := vertex_1, v2 := vertex_2,
                       edge_type, strand }
  (e, { σ with edges := alist_set (vertex_1, vertex_2, edge_type) e σ.edges,
               edge_counter := new_ID })

/-- match_or_create_edge: returns (edge_ID, novelty flag). -/
def match_or_create_edge (vertex_1 vertex_2 : Nat) (edge_type : EdgeType)
    (strand : Strand) (σ : GState) : (Nat × Nat) × GState :=
  match search_for_edge vertex_1 vertex_2 edge_type σ.edges with
  | some e => ((e.edge_ID, 0), σ)
  | none =>
    let r := create_edge vertex_1 vertex_2 edge_type strand σ
    ((r.1.edge_ID, 1), r.2)

/-- create_gene: allocates a fresh gene ID and appends it to tmp_gene. -/
def create_gene (chromosome : Chrom) (start_p end_p : Int) (strand : Strand)
    (σ : GState) : Nat × GState :=
  let new_ID := σ.gene_counter + 1
  let g : GRow := { gene_ID := new_ID, chromosome,
                    start_pos := min start_p end_p,
                    end_pos := max start_p end_p, strand }
  (new_ID, { σ with tmp_gene := σ.tmp_gene ++ [g], gene_counter := new_ID })

/-- ",".join(map(str, l)) -/
def joinComma (l : List Nat) : String :=
  String.intercalate "," (l.map (fun n => toString n))

/-- The jn_path stored by create_transcript: the comma-joined string of
edge_IDs[1:-1] when there is more than one edge, else None. -/
def jn_path_of (edge_IDs : List Nat) : Option String :=
  if edge_IDs.length > 1 then some (joinComma ((edge_IDs.drop 1).dropLast))
  else none

/-- create_transcript: allocates a fresh transcript ID, stores the record
in transcript_dict under the frozenset of its edge IDs, and appends the
span row to tmp_t. -/
def create_transcript (strand : Strand) (chromosome : Chrom)
    (start_pos end_pos : Int) (gene_ID : Nat) (edge_IDs vertex_IDs : List Nat)
    (σ : GState) : TranscriptRec × GState :=
  let new_ID := σ.transcript_counter + 1
  let t : TranscriptRec :=
    { transcript_ID := new_ID, gene_ID,
      jn_path := jn_path_of edge_IDs,
      start_exon := edge_IDs.headI, end_exon := edge_IDs.getLastD 0,
      start_vertex := vertex_IDs.headI, end_vertex := vertex_IDs.getLastD 0,
      n_exons := (edge_IDs.length + 1) / 2,
      chromosome, start_pos, end_pos }
  let row : TRow := { gene_ID, transcript_ID := new_ID, chromosome,
                      min_pos := min start_pos end_pos,
                      max_pos := max start_pos end_pos, strand }
  (t, { σ with tdict := alist_set edge_IDs.toFinset t σ.tdict,
               tmp_t := σ.tmp_t ++ [row],
               transcript_counter := new_ID })

/-- search_for_ISM: all transcripts whose edge set is a superset of the
query's edge set (in dict insertion order); None when there are none. -/
def search_for_ISM (edge_IDs : List Nat) (transcript_dict : TranscriptDict) :
    Option (List TranscriptRec) :=
  let edges := edge_IDs.toFinset
  let ISM_matches :=
    (transcript_dict.filter (fun kv => decide (edges ⊆ kv.1))).map (fun kv => kv.2)
  if ISM_matches.length > 0 then some ISM_matches else none

/-- search_for_transcript: exact lookup by edge-ID set. -/
def search_for_transcript (edge_IDs : Finset Nat)
    (transcript_dict : TranscriptDict) : Option (Nat × TranscriptRec) :=
  (alist_get edge_IDs transcript_dict).map (fun t => (t.gene_ID, t))

/-! ## Permissive end matching -/

/-- One probe of the permissive search loop: accept curr_pos only when it
lies strictly inside the window, then look it up. -/
def psvProbe (chromosome : Chrom) (locations : LocationDict) (position : Int)
    (strand : Strand) (ws we curr_pos : Int) : Option (Nat × Int) :=
  if ws < curr_pos ∧ curr_pos < we then
    match search_for_vertex_at_pos chromosome curr_pos locations with
    | some m => some (m.location_ID, compute_delta curr_pos position strand)
    | none => none
  else none

/-- The loop of permissive_vertex_search over ascending offsets, trying
position + dist * dp before position - dist * dp at each offset. -/
def psvLoop (chromosome : Chrom) (locations : LocationDict) (position : Int)
    (strand : Strand) (ws we dp : Int) : List Int → Option (Nat × Int)
  | [] => none
  | dist :: rest =>
    match psvProbe chromosome locations position strand ws we (position + dist * dp) with
    | some r => some r
    | none =>
      match psvProbe chromosome locations position strand ws we (position - dist * dp) with
      | some r => some r
      | none => psvLoop chromosome locations position strand ws we dp rest

/-- The offsets scanned by the source loop, for dist in range(1, max_dist):
1, 2, ..., max_dist - 1 (empty when max_dist is at most 1). -/
def offsetsUpTo (max_dist : Int) : List Int :=
  (List.range (max_dist - 1).toNat).map (fun i : Nat => (i : Int) + 1)

/-- permissive_vertex_search: exact match first, else scan offsets
1..cutoff-1 outward from position, preferring the degradation-consistent
direction, accepting only positions strictly inside the search window.
Returns (location_ID, signed delta) or None. -/
def permissive_vertex_search (chromosome : Chrom) (position : Int)
    (strand : Strand) (sj_pos : Int) (pos_type : PosType)
    (locations : LocationDict) (ri : RunInfo) : Option (Nat × Int) :=
  match search_for_vertex_at_pos chromosome position locations with
  | some m => some (m.location_ID, 0)
  | none =>
    let max_dist := if pos_type = .pstart then ri.cutoff_5p else ri.cutoff_3p
    if (strand = .plus ∧ pos_type = .pstart) ∨ (strand = .minus ∧ pos_type = .pend) then
      psvLoop chromosome locations position strand (position - max_dist) sj_pos (-1)
        (offsetsUpTo max_dist)
    else
      psvLoop chromosome locations position strand sj_pos (position + max_dist) 1
        (offsetsUpTo max_dist)

/-- One step of the scan over a gene's known terminus positions in
permissive_match_with_gene_priority: the accumulator is
(min_abs_dist, best so far as (best_dist, closest_vertex)). -/
def pmgpStep (position : Int) (strand : Strand) (ws we : Int)
    (acc : Int × Option (Int × Nat)) (loc : Int × Nat) :
    Int × Option (Int × Nat) :=
  if loc.1 < ws ∨ loc.1 > we then acc
  else
    let curr_dist := compute_delta loc.1 position strand
    if |curr_dist| < acc.1 then (|curr_dist|, some (curr_dist, loc.2)) else acc

/-- permissive_match_with_gene_priority: prefer an exact match, then the
closest in-window known terminus of the assigned gene, then the plain
permissive search.  Returns (optional (vertex, distance), known flag). -/
def permissive_match_with_gene_priority (chromosome : Chrom) (position : Int)
    (strand : Strand) (sj_pos : Int) (pos_type : PosType) (gene_ID : Nat)
    (gene_locs : GeneLocs) (locations : LocationDict) (ri : RunInfo) :
    Option (Nat × Int) × Nat :=
  match search_for_vertex_at_pos chromosome position locations with
  | some m =>
    match alist_get gene_ID gene_locs with
    | some glocs =>
      if (alist_get position glocs).isSome then (some (m.location_ID, 0), 1)
      else (some (m.location_ID, 0), 0)
    | none => (some (m.location_ID, 0), 0)
  | none =>
    match alist_get gene_ID gene_locs with
    | some glocs =>
      let max_dist := if pos_type = .pstart then ri.cutoff_5p else ri.cutoff_3p
      let fwd := (strand = .plus ∧ pos_type = .pstart) ∨
                 (strand = .minus ∧ pos_type = .pend)
      let ws := if fwd then position - max_dist else sj_pos
      let we := if fwd then sj_pos else position + max_dist
      let acc := glocs.foldl (pmgpStep position strand ws we) (max_dist + 1, none)
      if acc.1 ≤ max_dist then
        match acc.2 with
        | some (d, v) => (some (v, d), 1)
        | none =>
          (permissive_vertex_search chromosome position strand sj_pos pos_type
            locations ri, 0)
      else
        (permissive_vertex_search chromosome position strand sj_pos pos_type
          locations ri, 0)
    | none =>
      (permissive_vertex_search chromosome position strand sj_pos pos_type
        locations ri, 0)

/-- positions[-1] -/
def listLast (l : List Int) : Int := l.getLastD 0

/-- positions[-2] -/
def listPenult (l : List Int) : Int := l.dropLast.getLastD 0

/-- Result of the 5-prime or 3-prime end processing: assigned terminal
vertex, terminal exon, exon novelty, known-terminus flag, signed delta
(None when a fresh vertex had to be created). -/
structure EndMatch where
  vertex : Nat
  exon : Nat
  nov : Nat
  known : Nat
  diff : Option Int
deriving DecidableEq, Repr

/-- process_5p: permissively match the 5-prime end (gene priority first),
create a vertex if nothing matched, then match or create the first exon. -/
def process_5p (chrom : Chrom) (positions : List Int) (strand : Strand)
    (vertex_IDs : List Nat) (gene_ID : Nat) (gene_starts : GeneLocs)
    (ri : RunInfo) (σ : GState) : EndMatch × GState :=
  let pm := permissive_match_with_gene_priority chrom positions.headI strand
    (positions.getD 1 0) .pstart gene_ID gene_starts σ.locations ri
  let r1 : Nat × Option Int × GState :=
    match pm.1 with
    | some vd => (vd.1, some vd.2, σ)
    | none =>
      let cv := create_vertex chrom positions.headI ri σ
      (cv.1.location_ID, none, cv.2)
  let r2 := match_or_create_edge r1.1 vertex_IDs.headI .exon strand r1.2.2
  ({ vertex := r1.1, exon := r2.1.1, nov := r2.1.2, known := pm.2,
     diff := r1.2.1 }, r2.2)

/-- process_3p: permissively match the 3-prime end (gene priority first),
create a vertex if nothing matched, then match or create the last exon. -/
def process_3p (chrom : Chrom) (positions : List Int) (strand : Strand)
    (vertex_IDs : List Nat) (gene_ID : Nat) (gene_ends : GeneLocs)
    (ri : RunInfo) (σ : GState) : EndMatch × GState :=
  let pm := permissive_match_with_gene_priority chrom (listLast positions) strand
    (listPenult positions) .pend gene_ID gene_ends σ.locations ri
  let r1 : Nat × Option Int × GState :=
    match pm.1 with
    | some vd => (vd.1, some vd.2, σ)
    | none =>
      let cv := create_vertex chrom (listLast positions) ri σ
      (cv.1.location_ID, none, cv.2)
  let r2 := match_or_create_edge (vertex_IDs.getLastD 0) r1.1 .exon strand r1.2.2
  ({ vertex := r1.1, exon := r2.1.1, nov := r2.1.2, known := pm.2,
     diff := r1.2.1 }, r2.2)

/-- The start_end_info dict packaged by the classification functions. -/
structure StartEndInfo where
  start_vertex : Nat
  end_vertex : Nat
  start_exon : Nat
  end_exon : Nat
  diff_5p : Option Int
  diff_3p : Option Int
  start_novelty : Nat
  end_novelty : Nat
  vertex_IDs : List Nat
  edge_IDs : List Nat
deriving DecidableEq, Repr

/-- A transcript/gene novelty attribute row
(entity_ID, idpfx, "TALON", attribute, value). -/
abbrev NoveltyRow := Nat × String × String × String × String

/-- process_FSM: among the superset matches, a match with the query's exon
count is an FSM; the first one supplies the gene and transcript IDs.  Each
query end inherits the match's terminus when its raw offset is within the
cutoff, and is recomputed by permissive search otherwise.  The transcript
novelty list of an FSM is always empty. -/
def process_FSM (chrom : Chrom) (positions : List Int) (strand : Strand)
    (edge_IDs vertex_IDs : List Nat) (all_matches : List TranscriptRec)
    (gene_starts gene_ends : GeneLocs) (ri : RunInfo) (σ : GState) :
    Option (Nat × Nat × List NoveltyRow × StartEndInfo) × GState :=
  let n_exons := positions.length / 2
  match all_matches.filter (fun x => decide (x.n_exons = n_exons)) with
  | [] => (none, σ)
  | m :: _ =>
    let curr_5p_diff := compute_delta m.start_pos positions.headI strand
    let curr_3p_diff := compute_delta m.end_pos (listLast positions) strand
    let r5 : Nat × Nat × Nat × Option Int × GState :=
      if |curr_5p_diff| ≤ ri.cutoff_5p then
        (m.start_vertex, m.start_exon, 0, some curr_5p_diff, σ)
      else
        let p := process_5p chrom positions strand vertex_IDs m.gene_ID
          gene_starts ri σ
        (p.1.vertex, p.1.exon, p.1.nov, p.1.diff, p.2)
    let σ1 := r5.2.2.2.2
    let r3 : Nat × Nat × Nat × Option Int × GState :=
      if |curr_3p_diff| ≤ ri.cutoff_3p then
        (m.end_vertex, m.end_exon, 0, some curr_3p_diff, σ1)
      else
        let p := process_3p chrom positions strand vertex_IDs m.gene_ID
          gene_ends ri σ1
        (p.1.vertex, p.1.exon, p.1.nov, p.1.diff, p.2)
    let info : StartEndInfo :=
      { start_vertex := r5.1, end_vertex := r3.1,
        start_exon := r5.2.1, end_exon := r3.2.1,
        diff_5p := r5.2.2.2.1, diff_3p := r3.2.2.2.1,
        start_novelty := r5.2.2.1, end_novelty := r3.2.2.1,
        vertex_IDs := [r5.1] ++ vertex_IDs ++ [r3.1],
        edge_IDs := [r5.2.1] ++ edge_IDs ++ [r3.2.1] }
    (some (m.gene_ID, m.transcript_ID, ([] : List NoveltyRow), info), r3.2.2.2.2)

/-! ## Gene assignment and tie-breaking -/

/-- sys.maxsize, the initial minimum distance in get_best_match. -/
def sysMaxsize : Int := 2 ^ 63 - 1

/-- get_best_match: the first row minimizing
abs(max_pos - max_end) + abs(min_pos - min_end) wins (strict improvement
only, so earlier rows beat later ties). -/
def get_best_match (ms : List TRow) (min_end max_end : Int) : Option TRow :=
  (ms.foldl
    (fun acc m =>
      let dist := |m.max_pos - max_end| + |m.min_pos - min_end|
      if dist < acc.1 then (dist, some m) else acc)
    (sysMaxsize, (none : Option TRow))).2

/-- The SQL overlap condition of the no-candidate-list query: row on the
read's chromosome whose [min_pos, max_pos] span intersects (inclusively)
the read interval. -/
def sqlOverlapPred (chrom : Chrom) (min_start max_end : Int) (r : TRow) : Bool :=
  decide (r.chromosome = chrom ∧
    ((r.min_pos ≤ min_start ∧ r.max_pos ≥ max_end) ∨
     (r.min_pos ≥ min_start ∧ r.max_pos ≤ max_end) ∨
     (r.min_pos ≥ min_start ∧ r.min_pos ≤ max_end) ∨
     (r.max_pos ≥ min_start ∧ r.max_pos ≤ max_end)))

/-- GROUP BY gene_ID of the no-candidate-list query.  SQLite returns one
row per gene with the bare columns taken from an unspecified row of the
group; we model the choice as the first row of each group. -/
def groupByGeneAux (seen : List Nat) : List TRow → List TRow
  | [] => []
  | r :: rest =>
    if r.gene_ID ∈ seen then groupByGeneAux seen rest
    else r :: groupByGeneAux (r.gene_ID :: seen) rest

def groupByGene (rows : List TRow) : List TRow :=
  groupByGeneAux [] rows

/-- search_for_overlap_with_gene.  With a candidate gene list the query is
SELECT ... FROM tmp_t WHERE gene_ID IN candidates — no chromosome or
overlap condition at all; without one it is the overlap query grouped by
gene.  Same-strand rows are preferred, with fallback to the opposite
strand only when no same-strand row exists, and get_best_match picks the
closest-ends row among those kept. -/
def search_for_overlap_with_gene (chromosome : Chrom) (start_p end_p : Int)
    (strand : Strand) (tmp_t : List TRow) (gene_IDs : Option (List Nat)) :
    Option (Nat × Strand) :=
  let min_start := min start_p end_p
  let max_end := max start_p end_p
  let fetched : List TRow :=
    match gene_IDs with
    | some gids => tmp_t.filter (fun r => decide (r.gene_ID ∈ gids))
    | none => groupByGene (tmp_t.filter (sqlOverlapPred chromosome min_start max_end))
  if fetched.length = 0 then none
  else
    let same_strand_matches := (fetched.filter (fun x => decide (x.strand = strand))).length
    let chosen : List TRow :=
      if (strand = .plus ∧ same_strand_matches > 0) ∨
         (strand = .minus ∧ same_strand_matches = 0) then
        fetched.filter (fun x => decide (x.strand = .plus))
      else
        fetched.filter (fun x => decide (x.strand = .minus))
    match get_best_match chosen min_start max_end with
    | some best => some (best.gene_ID, best.strand)
    | none => none

/-- Deduplicate keeping the first occurrence of each element. -/
def firstDedupAux (seen : List Nat) : List Nat → List Nat
  | [] => []
  | x :: rest =>
    if x ∈ seen then firstDedupAux seen rest
    else x :: firstDedupAux (x :: seen) rest

def firstDedup (l : List Nat) : List Nat :=
  firstDedupAux [] l

/-- Python max over a (nonempty) list of naturals. -/
def listMaxNat (l : List Nat) : Nat := l.foldl max 0

/-- max(gene_tally, key=gene_tally.get): the first key attaining the
maximal tally (later keys replace only on strict improvement). -/
def firstArgmax (keys : List Nat) (tally : Nat → Nat) : Option Nat :=
  keys.foldl
    (fun acc k =>
      match acc with
      | none => some k
      | some b => if tally k > tally b then some k else acc)
    none

/-- The gene_ID returned by find_gene_match_on_vertex_basis: None, a
single gene, or the candidate gene list handed to the overlap
tie-breaker. -/
inductive GeneAssignResult where
  | noGene
  | oneGene (g : Nat)
  | geneList (gs : List Nat)
deriving DecidableEq, Repr

/-- The per-vertex scan of find_gene_match_on_vertex_basis: gene_matches
accumulates the same-strand genes of every query vertex present in
vertex_2_gene, and n_gene_matches records how many genes claimed each
such vertex. -/
def fgmvbCollect (vertex_IDs : List Nat) (strand : Strand) (v2g : V2G) :
    List Nat × List Nat :=
  vertex_IDs.foldl
    (fun acc vertex =>
      match alist_get vertex v2g with
      | some curr_matches =>
        let ms := curr_matches.filter (fun m => decide (m.2 = strand))
        (acc.1 ++ ms.map (fun m => m.1), acc.2 ++ [ms.length])
      | none => acc)
    ([], [])

/-- find_gene_match_on_vertex_basis: returns (gene result, fusion flag).
No same-strand vertex match: (None, False).
Every matched vertex claimed by at most one gene but more than one gene
hit overall: fusion, (None, True).
More than one gene hit and some vertex claimed by several genes: the
candidate gene list, (list, False).
Otherwise the single most-observed gene. -/
def find_gene_match_on_vertex_basis (vertex_IDs : List Nat) (strand : Strand)
    (v2g : V2G) : GeneAssignResult × Bool :=
  let gm := fgmvbCollect vertex_IDs strand v2g
  let gene_matches := gm.1
  let n_gene_matches := gm.2
  let tally_keys := firstDedup gene_matches
  if gene_matches.length = 0 then (.noGene, false)
  else if listMaxNat n_gene_matches ≤ 1 ∧ tally_keys.length > 1 then
    (.noGene, true)
  else if tally_keys.length > 1 then (.geneList tally_keys, false)
  else
    match firstArgmax tally_keys (fun g => gene_matches.count g) with
    | some g => (.oneGene g, false)
    | none => (.noGene, false)

/-- assign_gene: vertex-basis assignment first; a candidate list (never
marked fusion) is tie-broken by closest ends among the candidates. -/
def assign_gene (vertex_IDs : List Nat) (strand : Strand) (v2g : V2G)
    (chrom : Chrom) (start_p end_p : Int) (σ : GState) : Option Nat × Bool :=
  match find_gene_match_on_vertex_basis vertex_IDs strand v2g with
  | (.noGene, fusion) => (none, fusion)
  | (.oneGene g, fusion) => (some g, fusion)
  | (.geneList gs, fusion) =>
    if fusion = false then
      match search_for_overlap_with_gene chrom start_p end_p strand σ.tmp_t (some gs) with
      | some gr => (some gr.1, fusion)
      | none => (none, fusion)
    else (none, fusion)

/-- The classification result packaged by process_FSM / process_ISM at the
identify_transcript level. -/
structure ISMOut where
  gene_ID : Nat
  transcript_ID : Nat
  novelty : List NoveltyRow
  info : Option StartEndInfo
deriving DecidableEq, Repr

/-- Char-for-char prefix test (kernel-reducible model of Python
str.startswith). -/
def charPrefix : List Char → List Char → Bool
  | [], _ => true
  | _ :: _, [] => false
  | a :: as, b :: bs => a = b && charPrefix as bs

/-- Python jn.startswith(p): p is a character prefix of jn. -/
def pyStartsWith (s p : String) : Bool := charPrefix p.data s.data

/-- Python jn.endswith(p): p is a character suffix of jn. -/
def pyEndsWith (s p : String) : Bool := charPrefix p.data.reverse s.data.reverse

/-- One step of the multi-exon ISM characterization loop: accumulate the
match in ISM_to_IDs, then test the query's interior edge string as a
string prefix / suffix of the match's junction path (a suffix hit also
overwrites the gene). Accumulator: (ISM, prefix list, suffix list, gene). -/
def ismScanStep (edge_str : String)
    (acc : List String × List String × List String × Nat)
    (m : TranscriptRec) : List String × List String × List String × Nat :=
  let ism := acc.1 ++ [toString m.transcript_ID]
  let jn := m.jn_path.getD ""
  let pre :=
    if pyStartsWith jn edge_str then acc.2.1 ++ [toString m.transcript_ID]
    else acc.2.1
  if pyEndsWith jn edge_str then
    (ism, pre, acc.2.2.1 ++ [toString m.transcript_ID], m.gene_ID)
  else (ism, pre, acc.2.2.1, acc.2.2.2)

/-- The single-exon ISM loop, which returns early (as an FSM) on the first
match that is itself single-exon. -/
def ismScanSingle (exon_str : String) :
    List TranscriptRec → List String × List String × List String × Nat →
    Sum (Nat × Nat) (List String × List String × List String × Nat)
  | [], acc => .inr acc
  | m :: rest, acc =>
    let ism := acc.1 ++ [toString m.transcript_ID]
    if m.n_exons = 1 then .inl (m.gene_ID, m.transcript_ID)
    else
      let jn := m.jn_path.getD ""
      let pre :=
        if pyStartsWith jn exon_str then acc.2.1 ++ [toString m.transcript_ID]
        else acc.2.1
      if pyEndsWith jn exon_str then
        ismScanSingle exon_str rest
          (ism, pre, acc.2.2.1 ++ [toString m.transcript_ID], m.gene_ID)
      else ismScanSingle exon_str rest (ism, pre, acc.2.2.1, acc.2.2.2)

/-- The novelty attribute rows emitted for an ISM transcript. -/
def ismNoveltyRows (tid : Nat) (idpfx : String)
    (ism pre suf : List String) : List NoveltyRow :=
  [(tid, idpfx, "TALON", "ISM_transcript", "TRUE"),
   (tid, idpfx, "TALON", "ISM_to_IDs", String.intercalate "," ism)] ++
  (if pre ≠ [] then
    [(tid, idpfx, "TALON", "ISM-prefix_transcript", "TRUE"),
     (tid, idpfx, "TALON", "ISM-prefix_to_IDs", String.intercalate "," pre)]
   else []) ++
  (if suf ≠ [] then
    [(tid, idpfx, "TALON", "ISM-suffix_transcript", "TRUE"),
     (tid, idpfx, "TALON", "ISM-suffix_to_IDs", String.intercalate "," suf)]
   else [])

/-- The gene-assignment step of process_ISM: collect the distinct genes of
the matches; with more than one, tie-break by closest ends among the
candidate genes and restrict the matches to the winner (None if the
tie-break fails); otherwise take the first match's gene. -/
def ismAssignedGene (chrom : Chrom) (positions : List Int) (strand : Strand)
    (tmp_t : List TRow) (all_matches : List TranscriptRec) :
    Option (Nat × List TranscriptRec) :=
  let gene_matches := firstDedup (all_matches.map (fun m => m.gene_ID))
  if gene_matches.length > 1 then
    match search_for_overlap_with_gene chrom positions.headI
        (listLast positions) strand tmp_t (some gene_matches) with
    | some gr => some (gr.1, all_matches.filter (fun m => decide (m.gene_ID = gr.1)))
    | none => none
  else
    match all_matches with
    | [] => none
    | m :: _ => some (m.gene_ID, all_matches)

/-- process_ISM: choose the gene (tie-breaking multi-gene match sets by
closest ends and restricting the matches to the chosen gene), resolve the
ends permissively, characterize every remaining match as ISM with
prefix/suffix sub-labels by string comparison on the comma-joined interior
edge path, then create the novel transcript and emit its novelty rows. -/
def process_ISM (chrom : Chrom) (positions : List Int) (strand : Strand)
    (edge_IDs vertex_IDs : List Nat) (all_matches : List TranscriptRec)
    (gene_starts gene_ends : GeneLocs) (ri : RunInfo) (σ : GState) :
    Option ISMOut × GState :=
  let n_exons := positions.length / 2
  match ismAssignedGene chrom positions strand σ.tmp_t all_matches with
  | none => (none, σ)
  | some ga =>
    let gene_ID := ga.1
    let kept := ga.2
    let re : (List Nat × List Nat × Option StartEndInfo) × GState :=
      if n_exons > 1 then
        let p5 := process_5p chrom positions strand vertex_IDs gene_ID
          gene_starts ri σ
        let p3 := process_3p chrom positions strand vertex_IDs gene_ID
          gene_ends ri p5.2
        let edge_IDs2 := [p5.1.exon] ++ edge_IDs ++ [p3.1.exon]
        let vertex_IDs2 := [p5.1.vertex] ++ vertex_IDs ++ [p3.1.vertex]
        ((edge_IDs2, vertex_IDs2,
          some { start_vertex := p5.1.vertex, end_vertex := p3.1.vertex,
                 start_exon := p5.1.exon, end_exon := p3.1.exon,
                 diff_5p := p5.1.diff, diff_3p := p3.1.diff,
                 start_novelty := p5.1.nov, end_novelty := p3.1.nov,
                 vertex_IDs := vertex_IDs2, edge_IDs := edge_IDs2 }), p3.2)
      else ((edge_IDs, vertex_IDs, none), σ)
    let edge_IDs2 := re.1.1
    let vertex_IDs2 := re.1.2.1
    let info := re.1.2.2
    let σ2 := re.2
    let scanned : Sum (Nat × Nat) (List String × List String × List String × Nat) :=
      if n_exons = 1 then
        ismScanSingle (toString edge_IDs2.headI) kept ([], [], [], gene_ID)
      else
        .inr (kept.foldl (ismScanStep (joinComma ((edge_IDs2.drop 1).dropLast)))
          ([], [], [], gene_ID))
    match scanned with
    | .inl gt =>
      (some { gene_ID := gt.1, transcript_ID := gt.2, novelty := [],
              info := info }, σ2)
    | .inr acc =>
      let ct := create_transcript strand chrom positions.headI
        (listLast positions) acc.2.2.2 edge_IDs2 vertex_IDs2 σ2
      (some { gene_ID := acc.2.2.2, transcript_ID := ct.1.transcript_ID,
              novelty := ismNoveltyRows ct.1.transcript_ID ri.idpfx
                acc.1 acc.2.1 acc.2.2.1,
              info := info }, ct.2)

/-- Lines 1629-1669 of identify_transcript: when all splice junctions are
known, fetch the superset matches and try FSM then ISM. -/
def fsm_ism_stage (chrom : Chrom) (positions : List Int) (strand : Strand)
    (edge_IDs vertex_IDs : List Nat) (gene_starts gene_ends : GeneLocs)
    (ri : RunInfo) (σ : GState) : Option ISMOut × GState :=
  match search_for_ISM edge_IDs σ.tdict with
  | none => (none, σ)
  | some all_matches =>
    match process_FSM chrom positions strand edge_IDs vertex_IDs all_matches
        gene_starts gene_ends ri σ with
    | (some r, σ1) =>
      (some { gene_ID := r.1, transcript_ID := r.2.1, novelty := r.2.2.1,
              info := some r.2.2.2 }, σ1)
    | (none, σ1) =>
      process_ISM chrom positions strand edge_IDs vertex_IDs all_matches
        gene_starts gene_ends ri σ1

/-! ## Batch committer (update_database / check_database_integrity)

The persistent store is abstracted to its observable content for the
integrity contract: a row count per table and the counters table.  Each
batch_add_* helper appends the records of one intermediate log to one
table, so a load is abstracted by the number of rows it appends per table;
update_counter overwrites the counters with the in-memory Counter values.
All of this happens inside one uncommitted sqlite connection: commit is
reached only if check_database_integrity does not raise, so an integrity
failure leaves the persistent store untouched. -/

structure DBState where
  tables : List (String × Nat)
  counters : List (String × Nat)
deriving DecidableEq, Repr

/-- The table checked for a counter category (the vertex counter counts
rows of the location table). -/
def tableNameOf (category : String) : String :=
  if category = "vertex" then "location" else category

/-- The failing table names logged by check_database_integrity: every
counter category whose table's row count differs from the counter (a
missing table aborts the check too and is treated as failing). -/
def integrity_failures (db : DBState) : List String :=
  db.counters.filterMap (fun c =>
    match alist_get (tableNameOf c.1) db.tables with
    | some actual => if actual ≠ c.2 then some (tableNameOf c.1) else none
    | none => some (tableNameOf c.1))

/-- check_database_integrity: raises (carrying the logged failing tables)
when any category mismatches. -/
def check_database_integrity (db : DBState) : Except (List String) Unit :=
  let fails := integrity_failures db
  if fails = [] then .ok () else .error fails

/-- The effect of the batch_add_* calls and update_counter on the
uncommitted working state of the connection. -/
structure LoadData where
  rowsAdded : List (String × Nat)
  finalCounters : List (String × Nat)
deriving DecidableEq, Repr

def applyLoads (db : DBState) (load : LoadData) : DBState :=
  { tables := db.tables.map (fun t => (t.1, t.2 + (alist_get t.1 load.rowsAdded).getD 0)),
    counters := db.counters.map (fun c => (c.1, (alist_get c.1 load.finalCounters).getD c.2)) }

/-- update_database: load everything into the (uncommitted) connection,
check integrity, and only then commit.  The RuntimeError path never
reaches conn.commit(), so the persistent store keeps its pre-run state. -/
def update_database (db : DBState) (load : LoadData) : Except (List String) DBState :=
  let working := applyLoads db load
  match check_database_integrity working with
  | .ok _ => .ok working
  | .error msgs => .error msgs

/-- The durable store after running update_database: unchanged when the
integrity check raised. -/
def persistentAfterUpdate (db : DBState) (load : LoadData) : DBState :=
  match update_database db load with
  | .ok d => d
  | .error _ => db

/-! ## Aggregator / listener and the end of main -/

/-- A message on the output queue: target file, payload, and the wall
clock time at which the listener receives it. -/
structure QMsg where
  fname : String
  value : String
  arrival : Nat
deriving DecidableEq, Repr

inductive ListenerExit where
  | completed
  | timedOut
  | blockedForever
deriving DecidableEq, Repr

/-- The listener loop: on each received message, first check the clock
against wait_until and the payload against the sentinel "complete"; both
close the files and break identically.  Otherwise append the payload to
its file.  An empty queue means queue.get() blocks forever — the timeout
is only ever noticed when a further message arrives. -/
def listener_run (wait_until : Nat) :
    List QMsg → List (String × String) → List (String × String) × ListenerExit
  | [], written => (written, .blockedForever)
  | m :: rest, written =>
    if m.arrival > wait_until ∨ m.value = "complete" then
      (written, if m.arrival > wait_until then .timedOut else .completed)
    else listener_run wait_until rest (written ++ [(m.fname, m.value)])

/-- The outcome of the tail of main: how the listener exited, what it
wrote, and the result of the unconditional batch commit. -/
structure RunOutcome where
  listenerExit : ListenerExit
  written : List (String × String)
  commit : Except (List String) DBState

/-- Lines 3213-3230 of main: the listener is started, the workers run,
and once the pool is joined update_database is invoked unconditionally —
nothing inspects how the listener exited. -/
def talon_main_run (wait_until : Nat) (msgs : List QMsg) (db : DBState)
    (load : LoadData) : RunOutcome :=
  let lr := listener_run wait_until msgs []
  { listenerExit := lr.2, written := lr.1, commit := update_database db load }

/-! # Claim theorems -/

/-- C10: for a two-exon read the interior edge-novelty list has exactly one
entry (its single intron).  check_all_exons_novel then returns the Python
int 0, which is falsy, so the all-exons-novel condition never excludes such
a read from the NNC branch (the branch guard reduces to the remaining two
conjuncts); check_all_SJs_known and check_all_exons_known both evaluate
that single intron entry in this length-one case. -/
theorem c10_two_exon_novelty_checks :
    ∀ x : Nat,
      check_all_exons_novel [x] = .pyInt 0 ∧
      (check_all_exons_novel [x]).truthy = false ∧
      (∀ sv fus : Bool, nnc_branch_guard sv fus [x] = (!sv && !fus)) ∧
      check_all_SJs_known [x] = .pyBool (decide (x = 0)) ∧
      check_all_exons_known [x] = .pyBool (decide (x = 0)) := by
  intro x
  refine ⟨by simp [check_all_exons_novel],
          by simp [check_all_exons_novel, PyRet.truthy], ?_,
          by simp [check_all_SJs_known],
          by simp [check_all_exons_known]⟩
  intro sv fus
  simp [nnc_branch_guard, check_all_exons_novel, PyRet.truthy]

/-- C9 counterexample: the shared counter value is a C signed 32-bit int
with no overflow checking, so the value returned by the first increment
call is returned again by call number 2^32 + 1 — returned IDs are not
unconditionally unique over arbitrarily long runs, against the claim. -/
theorem c9_counterexample :
    counterReturn 0 1 = 1 ∧
    counterReturn 0 (2 ^ 32 + 1) = 1 ∧
    (1 : Nat) ≠ 2 ^ 32 + 1 := by
  refine ⟨by norm_num [counterReturn, counterAfter, counterIncrement, wrap32], ?_, by norm_num⟩
  rw [counterReturn, counterAfter_eq 0 (2 ^ 32 + 1) (by norm_num)]
  norm_num [wrap32]

/-- C9 amended: the lock makes every increment an atomic
read-add-write-return step, so a run is a linear trace of increments; as
long as fewer than 2^32 increments are performed on a category's counter
(any feasible run), all returned values are pairwise distinct, so no two
entities of a category receive the same ID. -/
theorem c9_amended (init : Int) (i j : Nat) (hi : 1 ≤ i) (hj : 1 ≤ j)
    (hilt : i < 2 ^ 32) (hjlt : j < 2 ^ 32) (hne : i ≠ j) :
    counterReturn init i ≠ counterReturn init j := by
  intro h
  rw [counterReturn, counterReturn, counterAfter_eq init i hi,
    counterAfter_eq init j hj] at h
  unfold wrap32 at h
  have e32 : (2 : Int) ^ 32 = 4294967296 := by norm_num
  have e31 : (2 : Int) ^ 31 = 2147483648 := by norm_num
  have f32 : (2 : Nat) ^ 32 = 4294967296 := by norm_num
  rw [e32, e31] at h
  rw [f32] at hilt hjlt
  omega

/-- C9 amended witness at a concrete trace. -/
theorem c9_amended_witness : counterReturn 0 1 ≠ counterReturn 0 2 :=
  c9_amended 0 1 2 (by norm_num) (by norm_num) (by norm_num) (by norm_num)
    (by norm_num)

/-- C7: update_database loads everything into an uncommitted connection,
then checks every counter category against its table's row count before
conn.commit().  Any mismatch raises (reporting the failing tables) before
the commit, so the persistent store keeps its pre-run state; and whenever
the commit happens, every category's table count equals its counter. -/
theorem c7_commit_integrity (db : DBState) (load : LoadData) :
    (∀ msgs, update_database db load = .error msgs →
      msgs ≠ [] ∧ persistentAfterUpdate db load = db ∧
      ∀ t ∈ msgs, ∃ c ∈ (applyLoads db load).counters,
        tableNameOf c.1 = t ∧ alist_get t (applyLoads db load).tables ≠ some c.2) ∧
    (∀ db2, update_database db load = .ok db2 →
      persistentAfterUpdate db load = db2 ∧ db2 = applyLoads db load ∧
      ∀ c ∈ db2.counters, alist_get (tableNameOf c.1) db2.tables = some c.2) := by
  constructor
  · intro msgs herr
    have hdef : update_database db load = .error msgs := herr
    unfold update_database check_database_integrity at hdef
    by_cases hnil : integrity_failures (applyLoads db load) = []
    · simp [hnil] at hdef
    · simp [hnil] at hdef
      refine ⟨by rw [← hdef]; exact hnil, ?_, ?_⟩
      · unfold persistentAfterUpdate
        rw [herr]
      · intro t ht
        rw [← hdef] at ht
        unfold integrity_failures at ht
        obtain ⟨c, hc, hfc⟩ := List.mem_filterMap.mp ht
        refine ⟨c, hc, ?_⟩
        rcases hget : alist_get (tableNameOf c.1) (applyLoads db load).tables with _ | actual
        · rw [hget] at hfc
          simp at hfc
          exact ⟨hfc, by rw [← hfc, hget]; simp⟩
        · rw [hget] at hfc
          simp at hfc
          rcases hfc with ⟨hneq, hname⟩
          refine ⟨hname, ?_⟩
          rw [← hname, hget]
          simp [hneq]
  · intro db2 hok
    have hdef : update_database db load = .ok db2 := hok
    unfold update_database check_database_integrity at hdef
    by_cases hnil : integrity_failures (applyLoads db load) = []
    · simp [hnil] at hdef
      subst hdef
      refine ⟨by unfold persistentAfterUpdate; rw [hok], rfl, ?_⟩
      intro c hc
      have hfc := List.filterMap_eq_nil_iff.mp hnil c hc
      rcases hget : alist_get (tableNameOf c.1) (applyLoads db load).tables with _ | actual
      · rw [hget] at hfc
        simp at hfc
      · rw [hget] at hfc
        simp at hfc
        rw [hfc]
    · exfalso
      simp [hnil] at hdef

/-- A concrete database for the C7 witness. -/
def c7db : DBState := { tables := [("genes", 4)], counters := [("genes", 4)] }

/-- A consistent load: one gene row added, counter advanced to 5. -/
def c7load_ok : LoadData :=
  { rowsAdded := [("genes", 1)], finalCounters := [("genes", 5)] }

/-- An inconsistent load: counter claims 7 but only 5 rows exist. -/
def c7load_bad : LoadData :=
  { rowsAdded := [("genes", 1)], finalCounters := [("genes", 7)] }

/-- C7 witness: a consistent load commits with table/counter parity, and an
inconsistent one leaves the persistent store in its pre-run state. -/
theorem c7_witness :
    persistentAfterUpdate c7db c7load_ok = applyLoads c7db c7load_ok ∧
    (∀ c ∈ (applyLoads c7db c7load_ok).counters,
      alist_get (tableNameOf c.1) (applyLoads c7db c7load_ok).tables = some c.2) ∧
    persistentAfterUpdate c7db c7load_bad = c7db := by
  have hok := (c7_commit_integrity c7db c7load_ok).2 (applyLoads c7db c7load_ok) rfl
  have hbad := (c7_commit_integrity c7db c7load_bad).1 ["genes"] rfl
  exact ⟨hok.1, hok.2.2, hbad.2.1⟩

/-- A database state whose load passes the integrity check. -/
def c8db : DBState := { tables := [("genes", 2)], counters := [("genes", 2)] }

def c8load : LoadData := { rowsAdded := [], finalCounters := [] }

/-- A queue on which the only message arrives after the deadline. -/
def c8msgs : List QMsg := [{ fname := "f", value := "x", arrival := 100 }]

/-- C8 counterexample: with the deadline at 50, the listener times out (the
payload was not the sentinel), yet the run still performs the batch commit
successfully — a timeout is not a fatal abort without committing. -/
theorem c8_counterexample :
    (talon_main_run 50 c8msgs c8db c8load).listenerExit = .timedOut ∧
    (talon_main_run 50 c8msgs c8db c8load).commit = .ok (applyLoads c8db c8load) :=
  ⟨rfl, rfl⟩

lemma listener_timedOut_mem (wait_until : Nat) :
    ∀ (msgs : List QMsg) (written : List (String × String)),
      (listener_run wait_until msgs written).2 = .timedOut →
      ∃ m ∈ msgs, m.arrival > wait_until := by
  intro msgs
  induction msgs with
  | nil =>
    intro written h
    simp [listener_run] at h
  | cons m rest ih =>
    intro written h
    unfold listener_run at h
    by_cases hbrk : m.arrival > wait_until ∨ m.value = "complete"
    · rw [if_pos hbrk] at h
      by_cases ha : m.arrival > wait_until
      · exact ⟨m, by simp, ha⟩
      · exfalso
        simp [ha] at h
    · rw [if_neg hbrk] at h
      obtain ⟨m', hm', ha'⟩ := ih (written ++ [(m.fname, m.value)]) h
      exact ⟨m', by simp [hm'], ha'⟩

/-- C8 amended: when the timeout elapses the listener merely stops
consuming and closes its files — detected only when a later message
arrives — and main still performs the batch commit unconditionally: the
commit result never depends on how the listener exited, and a timed-out
exit only means some message arrived after the deadline. -/
theorem c8_amended (wait_until : Nat) (msgs : List QMsg) (db : DBState)
    (load : LoadData) :
    (talon_main_run wait_until msgs db load).commit = update_database db load ∧
    ((talon_main_run wait_until msgs db load).listenerExit = .timedOut →
      ∃ m ∈ msgs, m.arrival > wait_until) := by
  refine ⟨rfl, fun h => ?_⟩
  exact listener_timedOut_mem wait_until msgs [] h

/-- C8 amended witness on a concrete timed-out run. -/
theorem c8_amended_witness : ∃ m ∈ c8msgs, m.arrival > 50 :=
  (c8_amended 50 c8msgs c8db c8load).2 rfl

/-- Vertex 1 is claimed by genes 10 and 20 on the plus strand; vertex 2 is
unknown. -/
def c1v2g : V2G := [(1, [(10, .plus), (20, .plus)])]

/-- Gene 10 claims vertices 1 and 2; gene 20 claims vertex 3; every vertex
is claimed by exactly one gene. -/
def c1v2gB : V2G := [(1, [(10, .plus)]), (2, [(10, .plus)]), (3, [(20, .plus)])]

/-- C1 counterexample.  Scenario A: two genes matched and each shares
exactly one query vertex (no gene owns two), so the claim requires
(None, fusion=true) — but the code returns the candidate-gene list with
fusion=false, because its test is the per-vertex gene count
max(n_gene_matches), not the per-gene vertex tally.  Scenario B: gene 10
owns two query vertices, so the claim requires the candidate set with
fusion=false — but the code flags a fusion. -/
theorem c1_counterexample :
    (find_gene_match_on_vertex_basis [1, 2] .plus c1v2g = (.geneList [10, 20], false) ∧
     (fgmvbCollect [1, 2] .plus c1v2g).1.count 10 = 1 ∧
     (fgmvbCollect [1, 2] .plus c1v2g).1.count 20 = 1 ∧
     firstDedup (fgmvbCollect [1, 2] .plus c1v2g).1 = [10, 20]) ∧
    (find_gene_match_on_vertex_basis [1, 2, 3] .plus c1v2gB = (.noGene, true) ∧
     (fgmvbCollect [1, 2, 3] .plus c1v2gB).1.count 10 = 2 ∧
     firstDedup (fgmvbCollect [1, 2, 3] .plus c1v2gB).1 = [10, 20]) := by
  decide

/-- C1 amended: the fusion test is per vertex, not per gene.  The function
returns (None, fusion=true) exactly when some same-strand vertex match
exists, no single query vertex is claimed by two or more same-strand genes,
and more than one distinct gene was hit; and it returns the candidate-gene
list with fusion=false exactly when matches exist, some vertex is claimed
by at least two genes, and more than one distinct gene was hit. -/
theorem c1_amended (vertex_IDs : List Nat) (strand : Strand) (v2g : V2G) :
    (find_gene_match_on_vertex_basis vertex_IDs strand v2g = (.noGene, true) ↔
      ((fgmvbCollect vertex_IDs strand v2g).1 ≠ [] ∧
       listMaxNat (fgmvbCollect vertex_IDs strand v2g).2 ≤ 1 ∧
       (firstDedup (fgmvbCollect vertex_IDs strand v2g).1).length > 1)) ∧
    (find_gene_match_on_vertex_basis vertex_IDs strand v2g =
        (.geneList (firstDedup (fgmvbCollect vertex_IDs strand v2g).1), false) ↔
      ((fgmvbCollect vertex_IDs strand v2g).1 ≠ [] ∧
       listMaxNat (fgmvbCollect vertex_IDs strand v2g).2 > 1 ∧
       (firstDedup (fgmvbCollect vertex_IDs strand v2g).1).length > 1)) := by
  simp only [find_gene_match_on_vertex_basis]
  split_ifs with h1 h2 h3
  · have hnil : (fgmvbCollect vertex_IDs strand v2g).1 = [] :=
      List.eq_nil_of_length_eq_zero h1
    exact ⟨⟨fun h => by simp at h, fun h => absurd hnil h.1⟩,
           ⟨fun h => by simp at h, fun h => absurd hnil h.1⟩⟩
  · refine ⟨⟨fun _ => ⟨fun he => h1 (by rw [he]; rfl), h2.1, h2.2⟩, fun _ => rfl⟩,
            ⟨fun h => by simp at h, fun h => ?_⟩⟩
    exact absurd h.2.1 (by omega)
  · have hmax : listMaxNat (fgmvbCollect vertex_IDs strand v2g).2 > 1 := by
      by_contra hh
      exact h2 ⟨by omega, h3⟩
    refine ⟨⟨fun h => by simp at h, fun h => ?_⟩,
            ⟨fun _ => ⟨fun he => h1 (by rw [he]; rfl), hmax, h3⟩, fun _ => rfl⟩⟩
    exact absurd h.2.1 (by omega)
  · rcases hfa : firstArgmax (firstDedup (fgmvbCollect vertex_IDs strand v2g).1)
        (fun g => (fgmvbCollect vertex_IDs strand v2g).1.count g) with _ | g
    · exact ⟨⟨fun h => by simp at h, fun h => absurd h.2.2 h3⟩,
             ⟨fun h => by simp at h, fun h => absurd h.2.2 h3⟩⟩
    · exact ⟨⟨fun h => by simp at h, fun h => absurd h.2.2 h3⟩,
             ⟨fun h => by simp at h, fun h => absurd h.2.2 h3⟩⟩

/-! ## Supporting lemmas for the permissive search (C4) -/

/-- The cutoff used by permissive_vertex_search for the given end. -/
def psvMaxDist (pos_type : PosType) (ri : RunInfo) : Int :=
  if pos_type = .pstart then ri.cutoff_5p else ri.cutoff_3p

/-- Whether the degradation-consistent direction is upstream
(plus-strand start or minus-strand end). -/
def psvFwd (strand : Strand) (pos_type : PosType) : Prop :=
  (strand = .plus ∧ pos_type = .pstart) ∨ (strand = .minus ∧ pos_type = .pend)

instance (strand : Strand) (pos_type : PosType) : Decidable (psvFwd strand pos_type) := by
  unfold psvFwd
  infer_instance

/-- Lower bound of the acceptance window. -/
def psvLo (position sj_pos : Int) (strand : Strand) (pos_type : PosType)
    (ri : RunInfo) : Int :=
  if psvFwd strand pos_type then position - psvMaxDist pos_type ri else sj_pos

/-- Upper bound of the acceptance window. -/
def psvHi (position sj_pos : Int) (strand : Strand) (pos_type : PosType)
    (ri : RunInfo) : Int :=
  if psvFwd strand pos_type then sj_pos else position + psvMaxDist pos_type ri

/-- The direction tried first at each offset. -/
def psvDp (strand : Strand) (pos_type : PosType) : Int :=
  if psvFwd strand pos_type then -1 else 1

lemma permissive_vertex_search_eq_loop (chromosome : Chrom) (position : Int)
    (strand : Strand) (sj_pos : Int) (pos_type : PosType)
    (locations : LocationDict) (ri : RunInfo)
    (hnx : search_for_vertex_at_pos chromosome position locations = none) :
    permissive_vertex_search chromosome position strand sj_pos pos_type locations ri =
      psvLoop chromosome locations position strand
        (psvLo position sj_pos strand pos_type ri)
        (psvHi position sj_pos strand pos_type ri)
        (psvDp strand pos_type)
        (offsetsUpTo (psvMaxDist pos_type ri)) := by
  unfold permissive_vertex_search psvLo psvHi psvDp psvMaxDist psvFwd
  rw [hnx]
  by_cases hf : (strand = Strand.plus ∧ pos_type = PosType.pstart) ∨
      (strand = Strand.minus ∧ pos_type = PosType.pend)
  · simp only [if_pos hf]
  · simp only [if_neg hf]

lemma psvLoop_none_iff (c : Chrom) (locs : LocationDict) (pos : Int)
    (s : Strand) (lo hi dp : Int) (l : List Int) :
    psvLoop c locs pos s lo hi dp l = none ↔
      ∀ d ∈ l, psvProbe c locs pos s lo hi (pos + d * dp) = none ∧
               psvProbe c locs pos s lo hi (pos - d * dp) = none := by
  induction l with
  | nil => simp [psvLoop]
  | cons d rest ih =>
    constructor
    · intro h
      unfold psvLoop at h
      rcases h1 : psvProbe c locs pos s lo hi (pos + d * dp) with _ | r1
      · rcases h2 : psvProbe c locs pos s lo hi (pos - d * dp) with _ | r2
        · rw [h1, h2] at h
          intro d' hd'
          rcases List.mem_cons.mp hd' with he | hm
          · subst he
            exact ⟨h1, h2⟩
          · exact (ih.mp h) d' hm
        · rw [h1, h2] at h
          simp at h
      · rw [h1] at h
        simp at h
    · intro h
      unfold psvLoop
      rw [(h d (by simp)).1, (h d (by simp)).2]
      exact ih.mpr (fun d' hd' => h d' (by simp [hd']))

lemma psvLoop_some_split (c : Chrom) (locs : LocationDict) (pos : Int)
    (s : Strand) (lo hi dp : Int) (l : List Int) (r : Nat × Int) :
    psvLoop c locs pos s lo hi dp l = some r →
      ∃ pre d post, l = pre ++ d :: post ∧
        (∀ d' ∈ pre, psvProbe c locs pos s lo hi (pos + d' * dp) = none ∧
                     psvProbe c locs pos s lo hi (pos - d' * dp) = none) ∧
        (psvProbe c locs pos s lo hi (pos + d * dp) = some r ∨
         (psvProbe c locs pos s lo hi (pos + d * dp) = none ∧
          psvProbe c locs pos s lo hi (pos - d * dp) = some r)) := by
  induction l with
  | nil => intro h; simp [psvLoop] at h
  | cons d rest ih =>
    intro h
    unfold psvLoop at h
    rcases h1 : psvProbe c locs pos s lo hi (pos + d * dp) with _ | r1
    · rcases h2 : psvProbe c locs pos s lo hi (pos - d * dp) with _ | r2
      · rw [h1, h2] at h
        obtain ⟨pre, d0, post, hsplit, hpre, hd0⟩ := ih h
        refine ⟨d :: pre, d0, post, by rw [hsplit]; rfl, ?_, hd0⟩
        intro d' hd'
        rcases List.mem_cons.mp hd' with he | hm
        · subst he
          exact ⟨h1, h2⟩
        · exact hpre d' hm
      · rw [h1, h2] at h
        simp at h
        subst h
        exact ⟨[], d, rest, rfl, by simp, Or.inr ⟨h1, h2⟩⟩
    · rw [h1] at h
      simp at h
      subst h
      exact ⟨[], d, rest, rfl, by simp, Or.inl h1⟩

lemma offsetsUpTo_length (md : Int) :
    (offsetsUpTo md).length = (md - 1).toNat := by
  unfold offsetsUpTo
  rw [List.length_map, List.length_range]

lemma mem_offsetsUpTo (md d : Int) :
    d ∈ offsetsUpTo md ↔ 1 ≤ d ∧ d ≤ md - 1 := by
  unfold offsetsUpTo
  rw [List.mem_map]
  constructor
  · rintro ⟨i, hi, rfl⟩
    rw [List.mem_range] at hi
    omega
  · rintro ⟨h1, h2⟩
    refine ⟨(d - 1).toNat, ?_, ?_⟩
    · rw [List.mem_range]
      omega
    · omega

lemma offsetsUpTo_decompose (md : Int) (pre : List Int) (d : Int)
    (post : List Int) (h : offsetsUpTo md = pre ++ d :: post) :
    pre = offsetsUpTo d ∧ 1 ≤ d ∧ d ≤ md - 1 := by
  have hd : d ∈ offsetsUpTo md := by rw [h]; simp
  have hmem := (mem_offsetsUpTo md d).mp hd
  have hlen := offsetsUpTo_length md
  have hlen2 : (offsetsUpTo md).length = pre.length + (1 + post.length) := by
    rw [h, List.length_append, List.length_cons]
    omega
  have hplen : pre.length < (md - 1).toNat := by omega
  have hlt : pre.length < (offsetsUpTo md).length := by omega
  have hget : (offsetsUpTo md)[pre.length] = d := by
    rw [List.getElem_of_eq h]
    rw [List.getElem_append_right (Nat.le_refl pre.length)]
    simp
  have hgetval : (offsetsUpTo md)[pre.length] = (pre.length : Int) + 1 := by
    unfold offsetsUpTo
    rw [List.getElem_map, List.getElem_range]
  have hdval : d = (pre.length : Int) + 1 := by rw [← hget, hgetval]
  refine ⟨?_, hmem.1, hmem.2⟩
  have htake : pre = (offsetsUpTo md).take pre.length := by
    rw [h, List.take_left]
  rw [htake]
  unfold offsetsUpTo
  rw [← List.map_take, List.take_range]
  have hmin : min pre.length (md - 1).toNat = pre.length := by omega
  rw [hmin]
  have hdn : (d - 1).toNat = pre.length := by omega
  rw [hdn]

lemma psvProbe_eq_none_iff (c : Chrom) (locs : LocationDict) (pos : Int)
    (s : Strand) (lo hi q : Int) :
    psvProbe c locs pos s lo hi q = none ↔
      ¬ (lo < q ∧ q < hi ∧ (search_for_vertex_at_pos c q locs).isSome) := by
  unfold psvProbe
  split_ifs with hw
  · rcases hx : search_for_vertex_at_pos c q locs with _ | m
    · simp [hx, hw]
    · simp [hx, hw]
  · simp [hw]
    tauto

lemma psvProbe_eq_some (c : Chrom) (locs : LocationDict) (pos : Int)
    (s : Strand) (lo hi q : Int) (r : Nat × Int)
    (h : psvProbe c locs pos s lo hi q = some r) :
    lo < q ∧ q < hi ∧ ∃ m, search_for_vertex_at_pos c q locs = some m ∧
      r = (m.location_ID, compute_delta q pos s) := by
  unfold psvProbe at h
  split_ifs at h with hw
  · rcases hx : search_for_vertex_at_pos c q locs with _ | m
    · rw [hx] at h
      simp at h
    · rw [hx] at h
      simp at h
      exact ⟨hw.1, hw.2, m, rfl, h.symm⟩

lemma psv_q_form (pos q D : Int) (hdp : D = 1 ∨ D = -1) :
    q = pos + |q - pos| * D ∨ q = pos - |q - pos| * D := by
  rcases hdp with h | h
  · subst h
    simp only [mul_one]
    rcases abs_cases (q - pos) with ⟨h1, _⟩ | ⟨h1, _⟩
    · left
      omega
    · right
      omega
  · subst h
    simp only [mul_neg_one]
    rcases abs_cases (q - pos) with ⟨h1, _⟩ | ⟨h1, _⟩
    · right
      omega
    · left
      omega

lemma psv_abs_probe (pos d D : Int) (hdp : D = 1 ∨ D = -1) (hd : 0 ≤ d) :
    |pos + d * D - pos| = d ∧ |pos - d * D - pos| = d := by
  rcases hdp with h | h <;> subst h <;> constructor
  · have he : pos + d * 1 - pos = d := by ring
    rw [he, abs_of_nonneg hd]
  · have he : pos - d * 1 - pos = -d := by ring
    rw [he, abs_neg, abs_of_nonneg hd]
  · have he : pos + d * -1 - pos = -d := by ring
    rw [he, abs_neg, abs_of_nonneg hd]
  · have he : pos - d * -1 - pos = d := by ring
    rw [he, abs_of_nonneg hd]

/-- C4 amended: with no exact match, the source scans offsets 1..cutoff-1
(range(1, max_dist) stops one short of the cutoff, so a vertex at exactly
the cutoff offset is never probed), accepting only positions strictly
inside the window from pos+-cutoff to the adjacent splice junction; it
returns the nearest accepted vertex with its signed strand-aware delta,
preferring the degradation-consistent direction on ties; when nothing in
that range matches it returns None and the caller creates a new vertex. -/
theorem c4_amended (chromosome : Chrom) (position sj_pos : Int)
    (strand : Strand) (pos_type : PosType) (locations : LocationDict)
    (ri : RunInfo)
    (hnx : search_for_vertex_at_pos chromosome position locations = none) :
    (permissive_vertex_search chromosome position strand sj_pos pos_type locations ri = none ↔
      ∀ q : Int, psvLo position sj_pos strand pos_type ri < q →
        q < psvHi position sj_pos strand pos_type ri →
        1 ≤ |q - position| → |q - position| ≤ psvMaxDist pos_type ri - 1 →
        search_for_vertex_at_pos chromosome q locations = none) ∧
    (∀ v δ,
      permissive_vertex_search chromosome position strand sj_pos pos_type locations ri = some (v, δ) →
      ∃ q m, search_for_vertex_at_pos chromosome q locations = some m ∧
        v = m.location_ID ∧ δ = compute_delta q position strand ∧
        psvLo position sj_pos strand pos_type ri < q ∧
        q < psvHi position sj_pos strand pos_type ri ∧
        1 ≤ |q - position| ∧ |q - position| ≤ psvMaxDist pos_type ri - 1 ∧
        (∀ q', psvLo position sj_pos strand pos_type ri < q' →
          q' < psvHi position sj_pos strand pos_type ri →
          1 ≤ |q' - position| → |q' - position| < |q - position| →
          search_for_vertex_at_pos chromosome q' locations = none) ∧
        (∀ q', q' ≠ q → |q' - position| = |q - position| →
          psvLo position sj_pos strand pos_type ri < q' →
          q' < psvHi position sj_pos strand pos_type ri →
          (search_for_vertex_at_pos chromosome q' locations).isSome →
          q - position = |q - position| * psvDp strand pos_type)) := by
  rw [permissive_vertex_search_eq_loop chromosome position strand sj_pos pos_type
    locations ri hnx]
  have hdp : psvDp strand pos_type = 1 ∨ psvDp strand pos_type = -1 := by
    unfold psvDp
    split_ifs
    · right; rfl
    · left; rfl
  constructor
  · rw [psvLoop_none_iff]
    constructor
    · intro h q h1 h2 h3 h4
      have hd : |q - position| ∈ offsetsUpTo (psvMaxDist pos_type ri) :=
        (mem_offsetsUpTo _ _).mpr ⟨h3, h4⟩
      have hpr := h (|q - position|) hd
      rcases psv_q_form position q (psvDp strand pos_type) hdp with hq | hq
      · have hn := (psvProbe_eq_none_iff _ _ _ _ _ _ _).mp hpr.1
        rw [← hq] at hn
        rcases hx : search_for_vertex_at_pos chromosome q locations with _ | m
        · rfl
        · exact absurd ⟨h1, h2, by rw [hx]; rfl⟩ hn
      · have hn := (psvProbe_eq_none_iff _ _ _ _ _ _ _).mp hpr.2
        rw [← hq] at hn
        rcases hx : search_for_vertex_at_pos chromosome q locations with _ | m
        · rfl
        · exact absurd ⟨h1, h2, by rw [hx]; rfl⟩ hn
    · intro h d hd
      have hdm := (mem_offsetsUpTo _ _).mp hd
      have habs := psv_abs_probe position d (psvDp strand pos_type) hdp (by omega)
      constructor
      · rw [psvProbe_eq_none_iff]
        rintro ⟨hl, hh, hs⟩
        have := h (position + d * psvDp strand pos_type) hl hh
          (by rw [habs.1]; omega) (by rw [habs.1]; omega)
        rw [this] at hs
        simp at hs
      · rw [psvProbe_eq_none_iff]
        rintro ⟨hl, hh, hs⟩
        have := h (position - d * psvDp strand pos_type) hl hh
          (by rw [habs.2]; omega) (by rw [habs.2]; omega)
        rw [this] at hs
        simp at hs
  · intro v δ hsome
    obtain ⟨pre, d, post, hsplit, hpre, hd⟩ :=
      psvLoop_some_split _ _ _ _ _ _ _ _ _ hsome
    obtain ⟨hpreEq, hd1, hd2⟩ := offsetsUpTo_decompose _ pre d post hsplit
    have habs := psv_abs_probe position d (psvDp strand pos_type) hdp (by omega)
    have hmini : ∀ q', psvLo position sj_pos strand pos_type ri < q' →
        q' < psvHi position sj_pos strand pos_type ri →
        1 ≤ |q' - position| → |q' - position| < d →
        search_for_vertex_at_pos chromosome q' locations = none := by
      intro q' h1 h2 h3 h4
      have hdm : |q' - position| ∈ pre := by
        rw [hpreEq]
        exact (mem_offsetsUpTo _ _).mpr ⟨h3, by omega⟩
      have hpr := hpre (|q' - position|) hdm
      rcases psv_q_form position q' (psvDp strand pos_type) hdp with hq | hq
      · have hn := (psvProbe_eq_none_iff _ _ _ _ _ _ _).mp hpr.1
        rw [← hq] at hn
        rcases hx : search_for_vertex_at_pos chromosome q' locations with _ | m
        · rfl
        · exact absurd ⟨h1, h2, by rw [hx]; rfl⟩ hn
      · have hn := (psvProbe_eq_none_iff _ _ _ _ _ _ _).mp hpr.2
        rw [← hq] at hn
        rcases hx : search_for_vertex_at_pos chromosome q' locations with _ | m
        · rfl
        · exact absurd ⟨h1, h2, by rw [hx]; rfl⟩ hn
    rcases hd with hp | ⟨hp1, hp2⟩
    · obtain ⟨hl, hh, m, hm, hr⟩ := psvProbe_eq_some _ _ _ _ _ _ _ _ hp
      have hrv : v = m.location_ID ∧ δ = compute_delta
          (position + d * psvDp strand pos_type) position strand := by
        have := hr
        simp [Prod.ext_iff] at this
        exact ⟨this.1, this.2⟩
      refine ⟨position + d * psvDp strand pos_type, m, hm, hrv.1, hrv.2,
        hl, hh, by rw [habs.1]; omega, by rw [habs.1]; omega, ?_, ?_⟩
      · intro q' h1 h2 h3 h4
        rw [habs.1] at h4
        exact hmini q' h1 h2 h3 h4
      · intro q' _ _ _ _ _
        rw [habs.1]
        ring
    · obtain ⟨hl, hh, m, hm, hr⟩ := psvProbe_eq_some _ _ _ _ _ _ _ _ hp2
      have hrv : v = m.location_ID ∧ δ = compute_delta
          (position - d * psvDp strand pos_type) position strand := by
        have := hr
        simp [Prod.ext_iff] at this
        exact ⟨this.1, this.2⟩
      refine ⟨position - d * psvDp strand pos_type, m, hm, hrv.1, hrv.2,
        hl, hh, by rw [habs.2]; omega, by rw [habs.2]; omega, ?_, ?_⟩
      · intro q' h1 h2 h3 h4
        rw [habs.2] at h4
        exact hmini q' h1 h2 h3 h4
      · intro q' hne hoff h1 h2 hs
        exfalso
        rw [habs.2] at hoff
        have hq' : q' = position + d * psvDp strand pos_type := by
          rcases psv_q_form position q' (psvDp strand pos_type) hdp with hq | hq
          · rw [hoff] at hq
            exact hq
          · rw [hoff] at hq
            exact absurd (hq.trans rfl) hne
        have hn := (psvProbe_eq_none_iff _ _ _ _ _ _ _).mp hp1
        rw [← hq'] at hn
        exact hn ⟨h1, h2, hs⟩

/-- Run parameters with both end cutoffs at 50. -/
def c4ri : RunInfo :=
  { cutoff_5p := 50, cutoff_3p := 50, build := "b", idpfx := "T",
    n_places := 9, create_novel_spliced_genes := false }

/-- One known vertex at position 150 — exactly cutoff (50) downstream of
the query position 100, strictly inside the claimed acceptance window
(between 100 - 50 = 50 and the splice junction at 200). -/
def c4locs : LocationDict :=
  [(("c", 150), { location_ID := 7, genome_build := "b", chromosome := "c",
                  position := 150 })]

/-- C4 counterexample: the claim says offsets 1..cutoff are scanned and any
vertex strictly inside the window is accepted, so the vertex at offset
exactly 50 (strictly between pos-cutoff and the splice junction) would be
matched; but range(1, max_dist) stops at 49, and the search returns None. -/
theorem c4_counterexample :
    permissive_vertex_search "c" 100 .plus 200 .pstart c4locs c4ri = none ∧
    (search_for_vertex_at_pos "c" 150 c4locs).isSome = true ∧
    psvLo 100 200 .plus .pstart c4ri < 150 ∧
    (150 : Int) < psvHi 100 200 .plus .pstart c4ri ∧
    (1 : Int) ≤ |(150 : Int) - 100| ∧
    |(150 : Int) - 100| ≤ psvMaxDist .pstart c4ri := by
  refine ⟨by decide, by decide, by decide, by decide, by decide, by decide⟩

/-- One known vertex 60bp downstream of the query end at 100. -/
def c4locsW : LocationDict :=
  [(("c", 160), { location_ID := 9, genome_build := "b", chromosome := "c",
                  position := 160 })]

/-- A worker state holding only that vertex. -/
def c4stateW : GState :=
  { locations := c4locsW, edges := [], tdict := [], tmp_t := [], tmp_gene := [],
    vertex_counter := 30, edge_counter := 40, transcript_counter := 50,
    gene_counter := 60 }

/-- C4 witness: a read end 60bp from the only known vertex with cutoff 50
finds no permissive match (via the amended characterization), and the
caller (process_5p) creates a fresh vertex at the read position instead. -/
theorem c4_witness :
    permissive_vertex_search "c" 100 .plus 300 .pstart c4locsW c4ri = none ∧
    (process_5p "c" [100, 300] .plus [33] 1 [] c4ri c4stateW).1.vertex = 31 ∧
    (process_5p "c" [100, 300] .plus [33] 1 [] c4ri c4stateW).2.vertex_counter = 31 ∧
    search_for_vertex_at_pos "c" 100
      (process_5p "c" [100, 300] .plus [33] 1 [] c4ri c4stateW).2.locations =
      some { location_ID := 31, genome_build := "b", chromosome := "c",
             position := 100 } := by
  refine ⟨?_, by decide, by decide, by decide⟩
  refine (c4_amended "c" 100 300 .plus .pstart c4locsW c4ri (by decide)).1.mpr ?_
  intro q h1 h2 h3 h4
  by_cases hq : q = 160
  · subst hq
    exfalso
    have hmd : psvMaxDist .pstart c4ri = 50 := by decide
    rw [hmd] at h4
    norm_num at h4
  · unfold search_for_vertex_at_pos alist_get c4locsW
    rw [List.find?_cons_of_neg]
    · rfl
    · simp
      intro hc
      exact absurd hc.symm (by simpa using hq)

/-! ## Supporting lemmas for gene-overlap tie-breaking (C6) -/

/-- The combined end distance minimized by get_best_match. -/
def rowDist (r : TRow) (min_end max_end : Int) : Int :=
  |r.max_pos - max_end| + |r.min_pos - min_end|

lemma gbm_fold_spec (a b : Int) :
    ∀ (l : List TRow) (md : Int) (best : Option TRow),
      (∀ r, best = some r → rowDist r a b = md) →
      (∀ r, (l.foldl (fun acc m =>
          if |m.max_pos - b| + |m.min_pos - a| < acc.1 then
            (|m.max_pos - b| + |m.min_pos - a|, some m) else acc) (md, best)).2 = some r →
          rowDist r a b = (l.foldl (fun acc m =>
          if |m.max_pos - b| + |m.min_pos - a| < acc.1 then
            (|m.max_pos - b| + |m.min_pos - a|, some m) else acc) (md, best)).1) ∧
      (l.foldl (fun acc m =>
          if |m.max_pos - b| + |m.min_pos - a| < acc.1 then
            (|m.max_pos - b| + |m.min_pos - a|, some m) else acc) (md, best)).1 ≤ md ∧
      (∀ m ∈ l, (l.foldl (fun acc m =>
          if |m.max_pos - b| + |m.min_pos - a| < acc.1 then
            (|m.max_pos - b| + |m.min_pos - a|, some m) else acc) (md, best)).1 ≤ rowDist m a b) ∧
      (∀ r, (l.foldl (fun acc m =>
          if |m.max_pos - b| + |m.min_pos - a| < acc.1 then
            (|m.max_pos - b| + |m.min_pos - a|, some m) else acc) (md, best)).2 = some r →
          best = some r ∨ ∃ pre post, l = pre ++ r :: post ∧ rowDist r a b < md ∧
            ∀ m ∈ pre, rowDist r a b < rowDist m a b) := by
  intro l
  induction l with
  | nil =>
    intro md best hbest
    refine ⟨fun r hr => hbest r hr, le_refl md, by simp, fun r hr => Or.inl hr⟩
  | cons hrow t ih =>
    intro md best hbest
    simp only [List.foldl_cons]
    by_cases hlt : |hrow.max_pos - b| + |hrow.min_pos - a| < md
    · rw [if_pos hlt]
      have hbest' : ∀ r, (some hrow : Option TRow) = some r →
          rowDist r a b = |hrow.max_pos - b| + |hrow.min_pos - a| := by
        intro r hr
        have : hrow = r := by injection hr
        subst this
        rfl
      obtain ⟨p1, p2, p3, p4⟩ := ih (|hrow.max_pos - b| + |hrow.min_pos - a|) (some hrow) hbest'
      refine ⟨p1, p2.trans (le_of_lt hlt), ?_, ?_⟩
      · intro m hm
        rcases List.mem_cons.mp hm with he | hm'
        · subst he
          exact p2
        · exact p3 m hm'
      · intro r hr
        rcases p4 r hr with hsame | ⟨pre, post, hsplit, hdlt, hpre⟩
        · have : hrow = r := by injection hsame
          subst this
          exact Or.inr ⟨[], t, rfl, hlt, by simp⟩
        · refine Or.inr ⟨hrow :: pre, post, by rw [hsplit]; simp, hdlt.trans hlt, ?_⟩
          intro m hm
          rcases List.mem_cons.mp hm with he | hm'
          · subst he
            exact hdlt
          · exact hpre m hm'
    · rw [if_neg hlt]
      obtain ⟨p1, p2, p3, p4⟩ := ih md best hbest
      refine ⟨p1, p2, ?_, ?_⟩
      · intro m hm
        rcases List.mem_cons.mp hm with he | hm'
        · subst he
          simp only [rowDist]
          omega
        · exact p3 m hm'
      · intro r hr
        rcases p4 r hr with hsame | ⟨pre, post, hsplit, hdlt, hpre⟩
        · exact Or.inl hsame
        · refine Or.inr ⟨hrow :: pre, post, by rw [hsplit]; simp, hdlt, ?_⟩
          intro m hm
          rcases List.mem_cons.mp hm with he | hm'
          · subst he
            simp only [rowDist] at hdlt ⊢
            omega
          · exact hpre m hm'

lemma get_best_match_spec (ms : List TRow) (a b : Int) (r : TRow)
    (h : get_best_match ms a b = some r) :
    r ∈ ms ∧ (∀ m ∈ ms, rowDist r a b ≤ rowDist m a b) ∧
      ∃ pre post, ms = pre ++ r :: post ∧
        ∀ m ∈ pre, rowDist r a b < rowDist m a b := by
  have hspec := gbm_fold_spec a b ms sysMaxsize none (by intro r hr; cases hr)
  unfold get_best_match at h
  obtain ⟨p1, _, p3, p4⟩ := hspec
  rcases p4 r h with hnone | ⟨pre, post, hsplit, _, hpre⟩
  · cases hnone
  · have hmem : r ∈ ms := by rw [hsplit]; simp
    have hdr := p1 r h
    refine ⟨hmem, ?_, pre, post, hsplit, hpre⟩
    intro m hm
    rw [hdr]
    exact p3 m hm

/-- The rows fetched by the SQL query of search_for_overlap_with_gene. -/
def sfoFetched (chrom : Chrom) (mn mx : Int) (tmp_t : List TRow)
    (gene_IDs : Option (List Nat)) : List TRow :=
  match gene_IDs with
  | some gids => tmp_t.filter (fun r => decide (r.gene_ID ∈ gids))
  | none => groupByGene (tmp_t.filter (sqlOverlapPred chrom mn mx))

/-- The number of same-strand fetched rows. -/
def sfoSame (strand : Strand) (F : List TRow) : Nat :=
  (F.filter (fun x => decide (x.strand = strand))).length

/-- The strand-preferred subset handed to get_best_match. -/
def sfoChosen (strand : Strand) (F : List TRow) : List TRow :=
  if (strand = .plus ∧ sfoSame strand F > 0) ∨
     (strand = .minus ∧ sfoSame strand F = 0) then
    F.filter (fun x => decide (x.strand = .plus))
  else
    F.filter (fun x => decide (x.strand = .minus))

lemma search_for_overlap_eq (chrom : Chrom) (s e : Int) (strand : Strand)
    (tmp_t : List TRow) (gene_IDs : Option (List Nat)) :
    search_for_overlap_with_gene chrom s e strand tmp_t gene_IDs =
      (if (sfoFetched chrom (min s e) (max s e) tmp_t gene_IDs).length = 0 then none
       else
        match get_best_match
            (sfoChosen strand (sfoFetched chrom (min s e) (max s e) tmp_t gene_IDs))
            (min s e) (max s e) with
        | some best => some (best.gene_ID, best.strand)
        | none => none) := by
  rfl

lemma sfoChosen_subset (strand : Strand) (F : List TRow) (r : TRow)
    (h : r ∈ sfoChosen strand F) : r ∈ F := by
  unfold sfoChosen at h
  split_ifs at h <;> exact (List.mem_filter.mp h).1

lemma sfoChosen_closed (strand : Strand) (F : List TRow) (r m : TRow)
    (hr : r ∈ sfoChosen strand F) (hm : m ∈ F) (hsm : m.strand = r.strand) :
    m ∈ sfoChosen strand F := by
  unfold sfoChosen at *
  split_ifs at * with hc
  · have hrs := (List.mem_filter.mp hr).2
    simp at hrs
    exact List.mem_filter.mpr ⟨hm, by simp [hsm, hrs]⟩
  · have hrs := (List.mem_filter.mp hr).2
    simp at hrs
    exact List.mem_filter.mpr ⟨hm, by simp [hsm, hrs]⟩

lemma sfoSame_pos (strand : Strand) (F : List TRow)
    (h : ∃ r ∈ F, r.strand = strand) : sfoSame strand F > 0 := by
  obtain ⟨r, hr, hrs⟩ := h
  unfold sfoSame
  have : r ∈ F.filter (fun x => decide (x.strand = strand)) :=
    List.mem_filter.mpr ⟨hr, by simp [hrs]⟩
  exact List.length_pos.mpr (List.ne_nil_of_mem this)

lemma sfoChosen_pref (strand : Strand) (F : List TRow)
    (hex : ∃ r ∈ F, r.strand = strand) :
    ∀ r ∈ sfoChosen strand F, r.strand = strand := by
  intro r hr
  have hpos := sfoSame_pos strand F hex
  unfold sfoChosen at hr
  rcases hst : strand with _ | _
  · rw [hst] at hr hpos
    rw [if_pos (Or.inl ⟨rfl, hpos⟩)] at hr
    have := (List.mem_filter.mp hr).2
    simpa using this
  · rw [hst] at hr hpos
    have hcond : ¬ ((Strand.minus = Strand.plus ∧ sfoSame Strand.minus F > 0) ∨
        (Strand.minus = Strand.minus ∧ sfoSame Strand.minus F = 0)) := by
      rintro (⟨hh, _⟩ | ⟨_, hz⟩)
      · exact Strand.noConfusion hh
      · omega
    rw [if_neg hcond] at hr
    have := (List.mem_filter.mp hr).2
    simpa using this

lemma groupByGeneAux_subset :
    ∀ (l : List TRow) (seen : List Nat) (r : TRow),
      r ∈ groupByGeneAux seen l → r ∈ l := by
  intro l
  induction l with
  | nil =>
    intro seen r hr
    simp [groupByGeneAux] at hr
  | cons hrow t ih =>
    intro seen r hr
    unfold groupByGeneAux at hr
    split_ifs at hr with hmem
    · exact List.mem_cons.mpr (Or.inr (ih seen r hr))
    · rcases List.mem_cons.mp hr with he | hm
      · exact List.mem_cons.mpr (Or.inl he)
      · exact List.mem_cons.mpr (Or.inr (ih _ r hm))

/-- A transcript of gene 7 spanning 1000..2000, nowhere near the read. -/
def c6row : TRow :=
  { gene_ID := 7, transcript_ID := 1, chromosome := "c", min_pos := 1000,
    max_pos := 2000, strand := .plus }

/-- C6 counterexample: with a candidate gene list, the SQL query has no
chromosome or overlap condition at all (WHERE gene_ID IN ...), so a
candidate gene is returned even though none of its transcript spans
overlaps the read interval [1, 10] — the claim says only overlapping
spans are considered. -/
theorem c6_counterexample :
    search_for_overlap_with_gene "c" 1 10 .plus [c6row] (some [7]) =
      some (7, .plus) ∧
    sqlOverlapPred "c" 1 10 c6row = false := by
  refine ⟨by decide, by decide⟩

/-- C6 amended: with a candidate list, all transcripts of the candidate
genes are fetched regardless of chromosome or overlap; same-strand rows
are preferred (opposite strand only when no same-strand row exists); the
returned gene carries the row minimizing the combined end distance, first
minimal row winning.  Without a candidate list only spans overlapping the
read interval (inclusive) on its chromosome are considered. -/
theorem c6_amended :
    (∀ (chrom : Chrom) (s e : Int) (strand : Strand) (rows : List TRow)
        (gids : List Nat) (g : Nat) (st : Strand),
      search_for_overlap_with_gene chrom s e strand rows (some gids) = some (g, st) →
        (∃ r ∈ rows, r.gene_ID ∈ gids ∧ r.gene_ID = g ∧ r.strand = st ∧
          ∀ m ∈ rows, m.gene_ID ∈ gids → m.strand = st →
            rowDist r (min s e) (max s e) ≤ rowDist m (min s e) (max s e)) ∧
        ((∃ r ∈ rows, r.gene_ID ∈ gids ∧ r.strand = strand) → st = strand)) ∧
    (∀ (chrom : Chrom) (s e : Int) (strand : Strand) (rows : List TRow)
        (g : Nat) (st : Strand),
      search_for_overlap_with_gene chrom s e strand rows none = some (g, st) →
        ∃ r ∈ rows, sqlOverlapPred chrom (min s e) (max s e) r = true ∧
          r.gene_ID = g ∧ r.strand = st) := by
  constructor
  · intro chrom s e strand rows gids g st h
    rw [search_for_overlap_eq] at h
    split_ifs at h with hlen
    rcases hbm : get_best_match
        (sfoChosen strand (sfoFetched chrom (min s e) (max s e) rows (some gids)))
        (min s e) (max s e) with _ | best
    · rw [hbm] at h
      exact absurd h (by simp)
    · rw [hbm] at h
      simp only [Option.some.injEq, Prod.mk.injEq] at h
      obtain ⟨hg, hst⟩ := h
      obtain ⟨hmemC, hmin, _⟩ := get_best_match_spec _ _ _ _ hbm
      have hmemF := sfoChosen_subset _ _ _ hmemC
      have hmemRows : best ∈ rows ∧ best.gene_ID ∈ gids := by
        unfold sfoFetched at hmemF
        have := List.mem_filter.mp hmemF
        exact ⟨this.1, by simpa using this.2⟩
      constructor
      · refine ⟨best, hmemRows.1, hmemRows.2, hg, hst, ?_⟩
        intro m hm hmg hms
        have hmF : m ∈ sfoFetched chrom (min s e) (max s e) rows (some gids) := by
          unfold sfoFetched
          exact List.mem_filter.mpr ⟨hm, by simpa using hmg⟩
        have hmC := sfoChosen_closed strand _ best m hmemC hmF (by rw [hms, hst])
        exact hmin m hmC
      · rintro ⟨r0, hr0, hr0g, hr0s⟩
        have hr0F : r0 ∈ sfoFetched chrom (min s e) (max s e) rows (some gids) := by
          unfold sfoFetched
          exact List.mem_filter.mpr ⟨hr0, by simpa using hr0g⟩
        have := sfoChosen_pref strand _ ⟨r0, hr0F, hr0s⟩ best hmemC
        rw [← hst, this]
  · intro chrom s e strand rows g st h
    rw [search_for_overlap_eq] at h
    split_ifs at h with hlen
    rcases hbm : get_best_match
        (sfoChosen strand (sfoFetched chrom (min s e) (max s e) rows none))
        (min s e) (max s e) with _ | best
    · rw [hbm] at h
      exact absurd h (by simp)
    · rw [hbm] at h
      simp only [Option.some.injEq, Prod.mk.injEq] at h
      obtain ⟨hg, hst⟩ := h
      obtain ⟨hmemC, _, _⟩ := get_best_match_spec _ _ _ _ hbm
      have hmemF := sfoChosen_subset _ _ _ hmemC
      unfold sfoFetched at hmemF
      have hmemFil := groupByGeneAux_subset _ [] best hmemF
      have := List.mem_filter.mp hmemFil
      exact ⟨best, this.1, this.2, hg, hst⟩

/-- Candidate rows for the C6 witness: gene 7 far from the read, gene 8
close to it, both on the plus strand. -/
def c6rowsW : List TRow :=
  [{ gene_ID := 7, transcript_ID := 1, chromosome := "c", min_pos := 100,
     max_pos := 200, strand := .plus },
   { gene_ID := 8, transcript_ID := 2, chromosome := "c", min_pos := 2,
     max_pos := 9, strand := .plus }]

/-- C6 witness: on a concrete candidate tie-break the chosen gene is the
same-strand one with the minimal combined end distance. -/
theorem c6_witness :
    ∃ r ∈ c6rowsW, r.gene_ID ∈ [7, 8] ∧ r.gene_ID = 8 ∧ r.strand = Strand.plus ∧
      ∀ m ∈ c6rowsW, m.gene_ID ∈ [7, 8] → m.strand = Strand.plus →
        rowDist r (min 1 10) (max 1 10) ≤ rowDist m (min 1 10) (max 1 10) :=
  (c6_amended.1 "c" 1 10 .plus c6rowsW [7, 8] 8 .plus (by decide)).1

/-! ## State-preservation lemmas: end processing never touches the
transcript store or the transcript counter. -/

lemma create_vertex_state (c : Chrom) (p : Int) (ri : RunInfo) (σ : GState) :
    (create_vertex c p ri σ).2.tdict = σ.tdict ∧
    (create_vertex c p ri σ).2.transcript_counter = σ.transcript_counter ∧
    (create_vertex c p ri σ).2.tmp_t = σ.tmp_t :=
  ⟨rfl, rfl, rfl⟩

lemma match_or_create_edge_state (v1 v2 : Nat) (ty : EdgeType) (s : Strand)
    (σ : GState) :
    (match_or_create_edge v1 v2 ty s σ).2.tdict = σ.tdict ∧
    (match_or_create_edge v1 v2 ty s σ).2.transcript_counter = σ.transcript_counter ∧
    (match_or_create_edge v1 v2 ty s σ).2.tmp_t = σ.tmp_t := by
  unfold match_or_create_edge
  rcases h : search_for_edge v1 v2 ty σ.edges with _ | e
  · exact ⟨rfl, rfl, rfl⟩
  · exact ⟨rfl, rfl, rfl⟩

lemma process_5p_state (chrom : Chrom) (positions : List Int) (strand : Strand)
    (vertex_IDs : List Nat) (gene_ID : Nat) (gene_starts : GeneLocs)
    (ri : RunInfo) (σ : GState) :
    (process_5p chrom positions strand vertex_IDs gene_ID gene_starts ri σ).2.tdict = σ.tdict ∧
    (process_5p chrom positions strand vertex_IDs gene_ID gene_starts ri σ).2.transcript_counter = σ.transcript_counter ∧
    (process_5p chrom positions strand vertex_IDs gene_ID gene_starts ri σ).2.tmp_t = σ.tmp_t := by
  unfold process_5p
  rcases h : (permissive_match_with_gene_priority chrom positions.headI strand
      (positions.getD 1 0) .pstart gene_ID gene_starts σ.locations ri).1 with _ | vd
  · simp only [h]
    have h1 := create_vertex_state chrom positions.headI ri σ
    have h2 := match_or_create_edge_state
      (create_vertex chrom positions.headI ri σ).1.location_ID vertex_IDs.headI
      .exon strand (create_vertex chrom positions.headI ri σ).2
    exact ⟨h2.1.trans h1.1, h2.2.1.trans h1.2.1, h2.2.2.trans h1.2.2⟩
  · simp only [h]
    exact match_or_create_edge_state vd.1 vertex_IDs.headI .exon strand σ

lemma process_3p_state (chrom : Chrom) (positions : List Int) (strand : Strand)
    (vertex_IDs : List Nat) (gene_ID : Nat) (gene_ends : GeneLocs)
    (ri : RunInfo) (σ : GState) :
    (process_3p chrom positions strand vertex_IDs gene_ID gene_ends ri σ).2.tdict = σ.tdict ∧
    (process_3p chrom positions strand vertex_IDs gene_ID gene_ends ri σ).2.transcript_counter = σ.transcript_counter ∧
    (process_3p chrom positions strand vertex_IDs gene_ID gene_ends ri σ).2.tmp_t = σ.tmp_t := by
  unfold process_3p
  rcases h : (permissive_match_with_gene_priority chrom (listLast positions) strand
      (listPenult positions) .pend gene_ID gene_ends σ.locations ri).1 with _ | vd
  · simp only [h]
    have h1 := create_vertex_state chrom (listLast positions) ri σ
    have h2 := match_or_create_edge_state (vertex_IDs.getLastD 0)
      (create_vertex chrom (listLast positions) ri σ).1.location_ID
      .exon strand (create_vertex chrom (listLast positions) ri σ).2
    exact ⟨h2.1.trans h1.1, h2.2.1.trans h1.2.1, h2.2.2.trans h1.2.2⟩
  · simp only [h]
    exact match_or_create_edge_state (vertex_IDs.getLastD 0) vd.1 .exon strand σ

/-- Shared FSM-stage lemma: with superset matches present and a first
equal-exon-count match m, the FSM stage returns m's IDs with empty novelty,
conditional end inheritance, and an untouched transcript store. -/
lemma fsm_stage_first_match
    (σ : GState) (ri : RunInfo) (chrom : Chrom) (positions : List Int)
    (strand : Strand) (edge_IDs vertex_IDs : List Nat)
    (gene_starts gene_ends : GeneLocs)
    (ms rest : List TranscriptRec) (m : TranscriptRec)
    (hms : search_for_ISM edge_IDs σ.tdict = some ms)
    (hfsm : ms.filter (fun x => decide (x.n_exons = positions.length / 2)) = m :: rest) :
    ∃ info σ',
      fsm_ism_stage chrom positions strand edge_IDs vertex_IDs gene_starts
          gene_ends ri σ =
        (some { gene_ID := m.gene_ID, transcript_ID := m.transcript_ID,
                novelty := [], info := some info }, σ') ∧
      σ'.tdict = σ.tdict ∧ σ'.transcript_counter = σ.transcript_counter ∧
      info.edge_IDs = [info.start_exon] ++ edge_IDs ++ [info.end_exon] ∧
      (|compute_delta m.start_pos positions.headI strand| ≤ ri.cutoff_5p →
        info.start_vertex = m.start_vertex ∧ info.start_exon = m.start_exon ∧
        info.diff_5p = some (compute_delta m.start_pos positions.headI strand)) ∧
      (¬ |compute_delta m.start_pos positions.headI strand| ≤ ri.cutoff_5p →
        info.start_vertex =
          (process_5p chrom positions strand vertex_IDs m.gene_ID gene_starts ri σ).1.vertex ∧
        info.start_exon =
          (process_5p chrom positions strand vertex_IDs m.gene_ID gene_starts ri σ).1.exon ∧
        info.diff_5p =
          (process_5p chrom positions strand vertex_IDs m.gene_ID gene_starts ri σ).1.diff) ∧
      (|compute_delta m.end_pos (listLast positions) strand| ≤ ri.cutoff_3p →
        info.end_vertex = m.end_vertex ∧ info.end_exon = m.end_exon ∧
        info.diff_3p = some (compute_delta m.end_pos (listLast positions) strand)) ∧
      (¬ |compute_delta m.end_pos (listLast positions) strand| ≤ ri.cutoff_3p →
        info.end_vertex =
          (process_3p chrom positions strand vertex_IDs m.gene_ID gene_ends ri
            (if |compute_delta m.start_pos positions.headI strand| ≤ ri.cutoff_5p then σ
             else (process_5p chrom positions strand vertex_IDs m.gene_ID gene_starts ri σ).2)).1.vertex ∧
        info.end_exon =
          (process_3p chrom positions strand vertex_IDs m.gene_ID gene_ends ri
            (if |compute_delta m.start_pos positions.headI strand| ≤ ri.cutoff_5p then σ
             else (process_5p chrom positions strand vertex_IDs m.gene_ID gene_starts ri σ).2)).1.exon) ∧
      (|compute_delta m.start_pos positions.headI strand| ≤ ri.cutoff_5p ∧
       |compute_delta m.end_pos (listLast positions) strand| ≤ ri.cutoff_3p →
        σ' = σ) := by
  by_cases h5 : |compute_delta m.start_pos positions.headI strand| ≤ ri.cutoff_5p <;>
    by_cases h3 : |compute_delta m.end_pos (listLast positions) strand| ≤ ri.cutoff_3p
  · refine ⟨{ start_vertex := m.start_vertex, end_vertex := m.end_vertex,
                start_exon := m.start_exon, end_exon := m.end_exon,
                diff_5p := some (compute_delta m.start_pos positions.headI strand),
                diff_3p := some (compute_delta m.end_pos (listLast positions) strand),
                start_novelty := 0, end_novelty := 0,
                vertex_IDs := [m.start_vertex] ++ vertex_IDs ++ [m.end_vertex],
                edge_IDs := [m.start_exon] ++ edge_IDs ++ [m.end_exon] }, σ,
      ?_, rfl, rfl, rfl,
      fun _ => ⟨rfl, rfl, rfl⟩, fun hc => absurd h5 hc,
      fun _ => ⟨rfl, rfl, rfl⟩, fun hc => absurd h3 hc, fun _ => rfl⟩
    simp only [fsm_ism_stage]
    rw [hms]
    simp only [process_FSM]
    rw [hfsm]
    simp only [if_pos h5, if_pos h3]
  · refine ⟨{ start_vertex := m.start_vertex,
                end_vertex := (process_3p chrom positions strand vertex_IDs m.gene_ID gene_ends ri σ).1.vertex,
                start_exon := m.start_exon,
                end_exon := (process_3p chrom positions strand vertex_IDs m.gene_ID gene_ends ri σ).1.exon,
                diff_5p := some (compute_delta m.start_pos positions.headI strand),
                diff_3p := (process_3p chrom positions strand vertex_IDs m.gene_ID gene_ends ri σ).1.diff,
                start_novelty := 0,
                end_novelty := (process_3p chrom positions strand vertex_IDs m.gene_ID gene_ends ri σ).1.nov,
                vertex_IDs := [m.start_vertex] ++ vertex_IDs ++
              [(process_3p chrom positions strand vertex_IDs m.gene_ID gene_ends ri σ).1.vertex],
                edge_IDs := [m.start_exon] ++ edge_IDs ++
              [(process_3p chrom positions strand vertex_IDs m.gene_ID gene_ends ri σ).1.exon] },
      (process_3p chrom positions strand vertex_IDs m.gene_ID gene_ends ri σ).2,
      ?_,
      (process_3p_state chrom positions strand vertex_IDs m.gene_ID gene_ends ri σ).1,
      (process_3p_state chrom positions strand vertex_IDs m.gene_ID gene_ends ri σ).2.1,
      rfl,
      fun _ => ⟨rfl, rfl, rfl⟩, fun hc => absurd h5 hc,
      fun hc => absurd hc h3, fun _ => by rw [if_pos h5]; exact ⟨rfl, rfl⟩,
      fun hc => absurd hc.2 h3⟩
    simp only [fsm_ism_stage]
    rw [hms]
    simp only [process_FSM]
    rw [hfsm]
    simp only [if_pos h5, if_neg h3]
  · refine ⟨{ start_vertex := (process_5p chrom positions strand vertex_IDs m.gene_ID gene_starts ri σ).1.vertex,
                end_vertex := m.end_vertex,
                start_exon := (process_5p chrom positions strand vertex_IDs m.gene_ID gene_starts ri σ).1.exon,
                end_exon := m.end_exon,
                diff_5p := (process_5p chrom positions strand vertex_IDs m.gene_ID gene_starts ri σ).1.diff,
                diff_3p := some (compute_delta m.end_pos (listLast positions) strand),
                start_novelty := (process_5p chrom positions strand vertex_IDs m.gene_ID gene_starts ri σ).1.nov,
                end_novelty := 0,
                vertex_IDs := [(process_5p chrom positions strand vertex_IDs m.gene_ID gene_starts ri σ).1.vertex] ++
              vertex_IDs ++ [m.end_vertex],
                edge_IDs := [(process_5p chrom positions strand vertex_IDs m.gene_ID gene_starts ri σ).1.exon] ++
              edge_IDs ++ [m.end_exon] },
      (process_5p chrom positions strand vertex_IDs m.gene_ID gene_starts ri σ).2,
      ?_,
      (process_5p_state chrom positions strand vertex_IDs m.gene_ID gene_starts ri σ).1,
      (process_5p_state chrom positions strand vertex_IDs m.gene_ID gene_starts ri σ).2.1,
      rfl,
      fun hc => absurd hc h5, fun _ => ⟨rfl, rfl, rfl⟩,
      fun _ => ⟨rfl, rfl, rfl⟩, fun hc => absurd h3 hc,
      fun hc => absurd hc.1 h5⟩
    simp only [fsm_ism_stage]
    rw [hms]
    simp only [process_FSM]
    rw [hfsm]
    simp only [if_neg h5, if_pos h3]
  · refine ⟨{ start_vertex := (process_5p chrom positions strand vertex_IDs m.gene_ID gene_starts ri σ).1.vertex,
                end_vertex := (process_3p chrom positions strand vertex_IDs m.gene_ID gene_ends ri
              (process_5p chrom positions strand vertex_IDs m.gene_ID gene_starts ri σ).2).1.vertex,
                start_exon := (process_5p chrom positions strand vertex_IDs m.gene_ID gene_starts ri σ).1.exon,
                end_exon := (process_3p chrom positions strand vertex_IDs m.gene_ID gene_ends ri
              (process_5p chrom positions strand vertex_IDs m.gene_ID gene_starts ri σ).2).1.exon,
                diff_5p := (process_5p chrom positions strand vertex_IDs m.gene_ID gene_starts ri σ).1.diff,
                diff_3p := (process_3p chrom positions strand vertex_IDs m.gene_ID gene_ends ri
              (process_5p chrom positions strand vertex_IDs m.gene_ID gene_starts ri σ).2).1.diff,
                start_novelty := (process_5p chrom positions strand vertex_IDs m.gene_ID gene_starts ri σ).1.nov,
                end_novelty := (process_3p chrom positions strand vertex_IDs m.gene_ID gene_ends ri
              (process_5p chrom positions strand vertex_IDs m.gene_ID gene_starts ri σ).2).1.nov,
                vertex_IDs := [(process_5p chrom positions strand vertex_IDs m.gene_ID gene_starts ri σ).1.vertex] ++
              vertex_IDs ++ [(process_3p chrom positions strand vertex_IDs m.gene_ID gene_ends ri
                (process_5p chrom positions strand vertex_IDs m.gene_ID gene_starts ri σ).2).1.vertex],
                edge_IDs := [(process_5p chrom positions strand vertex_IDs m.gene_ID gene_starts ri σ).1.exon] ++
              edge_IDs ++ [(process_3p chrom positions strand vertex_IDs m.gene_ID gene_ends ri
                (process_5p chrom positions strand vertex_IDs m.gene_ID gene_starts ri σ).2).1.exon] },
      (process_3p chrom positions strand vertex_IDs m.gene_ID gene_ends ri
        (process_5p chrom positions strand vertex_IDs m.gene_ID gene_starts ri σ).2).2,
      ?_, ?_, ?_,
      rfl,
      fun hc => absurd hc h5, fun _ => ⟨rfl, rfl, rfl⟩,
      fun hc => absurd hc h3, fun _ => by rw [if_neg h5]; exact ⟨rfl, rfl⟩,
      fun hc => absurd hc.1 h5⟩
    · simp only [fsm_ism_stage]
      rw [hms]
      simp only [process_FSM]
      rw [hfsm]
      simp only [if_neg h5, if_neg h3]
    · exact ((process_3p_state chrom positions strand vertex_IDs m.gene_ID gene_ends ri
        (process_5p chrom positions strand vertex_IDs m.gene_ID gene_starts ri σ).2).1).trans
        (process_5p_state chrom positions strand vertex_IDs m.gene_ID gene_starts ri σ).1
    · exact ((process_3p_state chrom positions strand vertex_IDs m.gene_ID gene_ends ri
        (process_5p chrom positions strand vertex_IDs m.gene_ID gene_starts ri σ).2).2.1).trans
        (process_5p_state chrom positions strand vertex_IDs m.gene_ID gene_starts ri σ).2.1

/-- C2: when every interior splice edge is pre-existing, the superset
search finds matches, and some match has the query's exon count, the FSM
stage returns the first such match's existing gene_ID and transcript_ID
with an empty transcript-novelty list, minting no transcript; each query
end inherits the match's terminal vertex and exon (with the raw signed
offset recorded) whenever the raw offset is within the 5'/3' cutoff, and
is recomputed by the permissive gene-priority search (process_5p /
process_3p) only when the offset exceeds the cutoff — when both ends are
within cutoff the state is completely untouched. -/
theorem c2_fsm_detection
    (σ : GState) (ri : RunInfo) (chrom : Chrom) (positions : List Int)
    (strand : Strand) (edge_IDs vertex_IDs : List Nat)
    (gene_starts gene_ends : GeneLocs)
    (ms rest : List TranscriptRec) (m : TranscriptRec)
    (hms : search_for_ISM edge_IDs σ.tdict = some ms)
    (hfsm : ms.filter (fun x => decide (x.n_exons = positions.length / 2)) = m :: rest) :
    ∃ info σ',
      fsm_ism_stage chrom positions strand edge_IDs vertex_IDs gene_starts
          gene_ends ri σ =
        (some { gene_ID := m.gene_ID, transcript_ID := m.transcript_ID,
                novelty := [], info := some info }, σ') ∧
      σ'.tdict = σ.tdict ∧ σ'.transcript_counter = σ.transcript_counter ∧
      info.edge_IDs = [info.start_exon] ++ edge_IDs ++ [info.end_exon] ∧
      (|compute_delta m.start_pos positions.headI strand| ≤ ri.cutoff_5p →
        info.start_vertex = m.start_vertex ∧ info.start_exon = m.start_exon ∧
        info.diff_5p = some (compute_delta m.start_pos positions.headI strand)) ∧
      (¬ |compute_delta m.start_pos positions.headI strand| ≤ ri.cutoff_5p →
        info.start_vertex =
          (process_5p chrom positions strand vertex_IDs m.gene_ID gene_starts ri σ).1.vertex ∧
        info.start_exon =
          (process_5p chrom positions strand vertex_IDs m.gene_ID gene_starts ri σ).1.exon ∧
        info.diff_5p =
          (process_5p chrom positions strand vertex_IDs m.gene_ID gene_starts ri σ).1.diff) ∧
      (|compute_delta m.end_pos (listLast positions) strand| ≤ ri.cutoff_3p →
        info.end_vertex = m.end_vertex ∧ info.end_exon = m.end_exon ∧
        info.diff_3p = some (compute_delta m.end_pos (listLast positions) strand)) ∧
      (¬ |compute_delta m.end_pos (listLast positions) strand| ≤ ri.cutoff_3p →
        info.end_vertex =
          (process_3p chrom positions strand vertex_IDs m.gene_ID gene_ends ri
            (if |compute_delta m.start_pos positions.headI strand| ≤ ri.cutoff_5p then σ
             else (process_5p chrom positions strand vertex_IDs m.gene_ID gene_starts ri σ).2)).1.vertex ∧
        info.end_exon =
          (process_3p chrom positions strand vertex_IDs m.gene_ID gene_ends ri
            (if |compute_delta m.start_pos positions.headI strand| ≤ ri.cutoff_5p then σ
             else (process_5p chrom positions strand vertex_IDs m.gene_ID gene_starts ri σ).2)).1.exon) ∧
      (|compute_delta m.start_pos positions.headI strand| ≤ ri.cutoff_5p ∧
       |compute_delta m.end_pos (listLast positions) strand| ≤ ri.cutoff_3p →
        σ' = σ) :=
  fsm_stage_first_match σ ri chrom positions strand edge_IDs vertex_IDs
    gene_starts gene_ends ms rest m hms hfsm

def c2ri : RunInfo :=
  { cutoff_5p := 50, cutoff_3p := 50, build := "b", idpfx := "T",
    n_places := 9, create_novel_spliced_genes := false }

/-- A known 2-exon transcript: exons 4 and 6 around intron 5. -/
def c2m : TranscriptRec :=
  { transcript_ID := 9, gene_ID := 3, jn_path := some "5", start_exon := 4,
    end_exon := 6, start_vertex := 11, end_vertex := 14, n_exons := 2,
    chromosome := "c", start_pos := 95, end_pos := 255 }

def c2state : GState :=
  { locations := [], edges := [], tdict := [([4, 5, 6].toFinset, c2m)],
    tmp_t := [], tmp_gene := [], vertex_counter := 100, edge_counter := 100,
    transcript_counter := 100, gene_counter := 100 }

/-- C2 witness: a read whose single intron matches the stored transcript
and whose raw ends are 5bp inside its termini is FSM-matched: same gene
and transcript IDs, no novelty rows, terminal exons and vertices inherited,
state untouched. -/
theorem c2_witness :
    ∃ info σ',
      fsm_ism_stage "c" [100, 150, 200, 250] .plus [5] [21, 22] [] [] c2ri c2state =
        (some { gene_ID := 3, transcript_ID := 9, novelty := [],
                info := some info }, σ') ∧
      info.start_vertex = 11 ∧ info.start_exon = 4 ∧
      info.end_vertex = 14 ∧ info.end_exon = 6 ∧ σ' = c2state := by
  obtain ⟨info, σ', h1, _, _, _, h5i, _, h3i, _, hboth⟩ :=
    c2_fsm_detection c2state c2ri "c" [100, 150, 200, 250] .plus [5] [21, 22]
      [] [] [c2m] [] c2m (by decide) (by decide)
  obtain ⟨hs1, hs2, _⟩ := h5i (by decide)
  obtain ⟨he1, he2, _⟩ := h3i (by decide)
  exact ⟨info, σ', h1, hs1, hs2, he1, he2, hboth ⟨by decide, by decide⟩⟩

lemma alist_get_set {α β : Type} [DecidableEq α] (k : α) (v : β) :
    ∀ l : List (α × β), alist_get k (alist_set k v l) = some v := by
  intro l
  induction l with
  | nil =>
    unfold alist_set alist_get
    simp
  | cons p rest ih =>
    unfold alist_set
    split_ifs with h
    · unfold alist_get
      simp
    · unfold alist_get at ih ⊢
      rw [List.find?_cons_of_neg]
      · exact ih
      · simp [h]

/-- The first, same-exon-count transcript of gene 3: exons 40 and 6 around
intron 5, starting far upstream at 20. -/
def c3tp : TranscriptRec :=
  { transcript_ID := 50, gene_ID := 3, jn_path := some "5", start_exon := 40,
    end_exon := 6, start_vertex := 41, end_vertex := 14, n_exons := 2,
    chromosome := "c", start_pos := 20, end_pos := 255 }

/-- The second transcript of gene 3 sharing intron 5 and the last exon but
starting at 100 with exon 4: its edge set is exactly what the test read
resolves to. -/
def c3t : TranscriptRec :=
  { transcript_ID := 51, gene_ID := 3, jn_path := some "5", start_exon := 4,
    end_exon := 6, start_vertex := 11, end_vertex := 14, n_exons := 2,
    chromosome := "c", start_pos := 100, end_pos := 255 }

def c3ri : RunInfo :=
  { cutoff_5p := 50, cutoff_3p := 50, build := "b", idpfx := "T",
    n_places := 9, create_novel_spliced_genes := false }

/-- Annotation-loaded state: both transcripts stored (c3tp first), the
vertex at 100 and the exon edge 4 = (11, 21) known. -/
def c3state : GState :=
  { locations := [(("c", 100),
      { location_ID := 11, genome_build := "b", chromosome := "c",
        position := 100 })],
    edges := [((11, 21, .exon),
      { edge_ID := 4, v1 := 11, v2 := 21, edge_type := .exon,
        strand := .plus })],
    tdict := [([40, 5, 6].toFinset, c3tp), ([4, 5, 6].toFinset, c3t)],
    tmp_t := [], tmp_gene := [],
    vertex_counter := 100, edge_counter := 100, transcript_counter := 100,
    gene_counter := 100 }

/-- C3 counterexample: a read whose resolved full edge-ID set is exactly
the stored set of transcript 51 (the dict key [4,5,6]) is nevertheless
assigned transcript 50 — the first same-exon-count superset match of its
interior in dict order — not the transcript stored under its own edge set.
"A later read resolving to an already-stored edge set is matched to the
stored transcript" is therefore false as stated. -/
theorem c3_counterexample :
    fsm_ism_stage "c" [100, 150, 200, 250] .plus [5] [21, 22] [] [] c3ri c3state =
      (some { gene_ID := 3, transcript_ID := 50, novelty := [],
              info := some { start_vertex := 11, end_vertex := 14,
                             start_exon := 4, end_exon := 6,
                             diff_5p := some 0, diff_3p := some (-5),
                             start_novelty := 0, end_novelty := 0,
                             vertex_IDs := [11, 21, 22, 14],
                             edge_IDs := [4, 5, 6] } }, c3state) ∧
    alist_get ([4, 5, 6] : List Nat).toFinset c3state.tdict = some c3t ∧
    c3t.transcript_ID = 51 ∧ (50 : Nat) ≠ 51 := by
  refine ⟨by decide, by decide, by decide, by decide⟩

/-- C3 amended: the transcript dict is keyed by the frozenset of the full
edge-ID list (part 1), and a read resolving to an already-stored edge set
does not mint a new transcript: it is FSM-matched to an existing
transcript — specifically, when the stored transcript of that set is the
only stored same-exon-count superset match of the read's interior path,
every such read receives exactly its gene and transcript IDs and the
transcript store and counter are untouched, so any two reads resolving to
that stored set receive the same transcript ID. -/
theorem c3_amended :
    (∀ (strand : Strand) (chromosome : Chrom) (start_pos end_pos : Int)
        (gene_ID : Nat) (edge_IDs vertex_IDs : List Nat) (σ : GState),
      alist_get edge_IDs.toFinset
          (create_transcript strand chromosome start_pos end_pos gene_ID
            edge_IDs vertex_IDs σ).2.tdict =
        some (create_transcript strand chromosome start_pos end_pos gene_ID
            edge_IDs vertex_IDs σ).1) ∧
    (∀ (σ : GState) (ri : RunInfo) (chrom : Chrom) (positions : List Int)
        (strand : Strand) (edge_IDs vertex_IDs : List Nat)
        (gene_starts gene_ends : GeneLocs) (S : Finset Nat) (t : TranscriptRec),
      (S, t) ∈ σ.tdict →
      edge_IDs.toFinset ⊆ S →
      t.n_exons = positions.length / 2 →
      (∀ p ∈ σ.tdict, edge_IDs.toFinset ⊆ p.1 →
        p.2.n_exons = positions.length / 2 → p.2 = t) →
      ∃ info σ',
        fsm_ism_stage chrom positions strand edge_IDs vertex_IDs gene_starts
            gene_ends ri σ =
          (some { gene_ID := t.gene_ID, transcript_ID := t.transcript_ID,
                  novelty := [], info := some info }, σ') ∧
        σ'.tdict = σ.tdict ∧ σ'.transcript_counter = σ.transcript_counter) := by
  constructor
  · intro strand chromosome start_pos end_pos gene_ID edge_IDs vertex_IDs σ
    exact alist_get_set edge_IDs.toFinset _ σ.tdict
  · intro σ ri chrom positions strand edge_IDs vertex_IDs gs ge S t hmem hsub
      hcnt huniq
    have htm : t ∈ (σ.tdict.filter
        (fun kv => decide (edge_IDs.toFinset ⊆ kv.1))).map (fun kv => kv.2) := by
      refine List.mem_map.mpr ⟨(S, t), ?_, rfl⟩
      exact List.mem_filter.mpr ⟨hmem, by simpa using hsub⟩
    have hms : search_for_ISM edge_IDs σ.tdict =
        some ((σ.tdict.filter
          (fun kv => decide (edge_IDs.toFinset ⊆ kv.1))).map (fun kv => kv.2)) := by
      simp only [search_for_ISM]
      rw [if_pos (List.length_pos.mpr (List.ne_nil_of_mem htm))]
    have htf : t ∈ ((σ.tdict.filter
        (fun kv => decide (edge_IDs.toFinset ⊆ kv.1))).map (fun kv => kv.2)).filter
          (fun x => decide (x.n_exons = positions.length / 2)) :=
      List.mem_filter.mpr ⟨htm, by simp [hcnt]⟩
    rcases hsplit : ((σ.tdict.filter
        (fun kv => decide (edge_IDs.toFinset ⊆ kv.1))).map (fun kv => kv.2)).filter
          (fun x => decide (x.n_exons = positions.length / 2)) with _ | ⟨hd, tl⟩
    · rw [hsplit] at htf
      simp at htf
    · have hhdf : hd ∈ ((σ.tdict.filter
          (fun kv => decide (edge_IDs.toFinset ⊆ kv.1))).map (fun kv => kv.2)).filter
            (fun x => decide (x.n_exons = positions.length / 2)) := by
        rw [hsplit]
        simp
      have hhdm := (List.mem_filter.mp hhdf).1
      have hhdn : hd.n_exons = positions.length / 2 := by
        have := (List.mem_filter.mp hhdf).2
        simpa using this
      obtain ⟨kv, hkvf, hkv2⟩ := List.mem_map.mp hhdm
      have hkvm := List.mem_filter.mp hkvf
      have hsub' : edge_IDs.toFinset ⊆ kv.1 := by simpa using hkvm.2
      have hkvt : kv.2 = t := huniq kv hkvm.1 hsub' (by rw [hkv2]; exact hhdn)
      have hhd : hd = t := by rw [← hkv2, hkvt]
      subst hhd
      obtain ⟨info, σ', h1, h2, h3, _⟩ := fsm_stage_first_match σ ri chrom
        positions strand edge_IDs vertex_IDs gs ge _ tl hd hms hsplit
      exact ⟨info, σ', h1, h2, h3⟩

/-- The unique stored transcript for the C3 witness. -/
def c3wt : TranscriptRec :=
  { transcript_ID := 9, gene_ID := 3, jn_path := some "5", start_exon := 4,
    end_exon := 6, start_vertex := 11, end_vertex := 14, n_exons := 2,
    chromosome := "c", start_pos := 100, end_pos := 255 }

def c3wstate : GState :=
  { locations := [], edges := [], tdict := [([4, 5, 6].toFinset, c3wt)],
    tmp_t := [], tmp_gene := [], vertex_counter := 100, edge_counter := 100,
    transcript_counter := 100, gene_counter := 100 }

/-- C3 witness: with transcript 9 the unique same-exon-count superset match
stored under the read's edge set, the read is matched to it and nothing is
minted. -/
theorem c3_witness :
    ∃ info σ',
      fsm_ism_stage "c" [100, 150, 200, 250] .plus [5] [21, 22] [] []
          c3ri c3wstate =
        (some { gene_ID := 3, transcript_ID := 9, novelty := [],
                info := some info }, σ') ∧
      σ'.tdict = c3wstate.tdict ∧
      σ'.transcript_counter = c3wstate.transcript_counter :=
  c3_amended.2 c3wstate c3ri "c" [100, 150, 200, 250] .plus [5] [21, 22] [] []
    ([4, 5, 6].toFinset) c3wt (by decide) (by decide) (by decide) (by decide)

/-! ## Supporting lemmas for ISM characterization (C5) -/

lemma mem_firstDedupAux :
    ∀ (l seen : List Nat) (a : Nat),
      a ∈ firstDedupAux seen l ↔ (a ∈ l ∧ a ∉ seen) := by
  intro l
  induction l with
  | nil =>
    intro seen a
    simp [firstDedupAux]
  | cons x rest ih =>
    intro seen a
    unfold firstDedupAux
    split_ifs with hx
    · rw [ih]
      constructor
      · rintro ⟨h1, h2⟩
        exact ⟨List.mem_cons.mpr (Or.inr h1), h2⟩
      · rintro ⟨h1, h2⟩
        rcases List.mem_cons.mp h1 with he | hm
        · subst he
          exact absurd hx h2
        · exact ⟨hm, h2⟩
    · constructor
      · intro h
        rcases List.mem_cons.mp h with he | hm
        · subst he
          exact ⟨List.mem_cons.mpr (Or.inl rfl), hx⟩
        · have := (ih (x :: seen) a).mp hm
          refine ⟨List.mem_cons.mpr (Or.inr this.1), ?_⟩
          intro hseen
          exact this.2 (List.mem_cons.mpr (Or.inr hseen))
      · rintro ⟨h1, h2⟩
        rcases List.mem_cons.mp h1 with he | hm
        · subst he
          exact List.mem_cons.mpr (Or.inl rfl)
        · by_cases hax : a = x
          · subst hax
            exact List.mem_cons.mpr (Or.inl rfl)
          · refine List.mem_cons.mpr (Or.inr ((ih (x :: seen) a).mpr ⟨hm, ?_⟩))
            intro hmem
            rcases List.mem_cons.mp hmem with he | hs
            · exact hax he
            · exact h2 hs

lemma mem_firstDedup (l : List Nat) (a : Nat) :
    a ∈ firstDedup l ↔ a ∈ l := by
  unfold firstDedup
  rw [mem_firstDedupAux]
  simp

lemma ismAssignedGene_gene (chrom : Chrom) (positions : List Int)
    (strand : Strand) (tmp_t : List TRow) (all_matches : List TranscriptRec)
    (g : Nat) (kept : List TranscriptRec)
    (h : ismAssignedGene chrom positions strand tmp_t all_matches = some (g, kept)) :
    ∀ m ∈ kept, m.gene_ID = g := by
  simp only [ismAssignedGene] at h
  split_ifs at h with hlen
  · rcases hov : search_for_overlap_with_gene chrom positions.headI
        (listLast positions) strand tmp_t
        (some (firstDedup (all_matches.map (fun m => m.gene_ID)))) with _ | gr
    · rw [hov] at h
      simp at h
    · rw [hov] at h
      simp only [Option.some.injEq, Prod.mk.injEq] at h
      obtain ⟨hg, hkept⟩ := h
      intro m hm
      rw [← hkept] at hm
      have := (List.mem_filter.mp hm).2
      simp at this
      rw [this, hg]
  · rcases hall : all_matches with _ | ⟨m0, tail⟩
    · rw [hall] at h
      simp at h
    · rw [hall] at h
      simp only [Option.some.injEq, Prod.mk.injEq] at h
      obtain ⟨hg, hkept⟩ := h
      intro m hm
      have hm0mem : m0.gene_ID ∈ firstDedup (all_matches.map (fun x => x.gene_ID)) := by
        rw [mem_firstDedup]
        exact List.mem_map.mpr ⟨m0, by rw [hall]; simp, rfl⟩
      have hmmem : m.gene_ID ∈ firstDedup (all_matches.map (fun x => x.gene_ID)) := by
        rw [mem_firstDedup]
        refine List.mem_map.mpr ⟨m, ?_, rfl⟩
        rw [hall]
        rw [← hkept] at hm
        exact hm
      rcases hdd : firstDedup (all_matches.map (fun x => x.gene_ID)) with _ | ⟨x, xs⟩
      · rw [hdd] at hm0mem
        simp at hm0mem
      · rcases hxs : xs with _ | _
        · rw [hdd, hxs] at hm0mem hmmem
          simp at hm0mem hmmem
          rw [hmmem, ← hm0mem, hg]
        · exfalso
          rw [hdd, hxs] at hlen
          simp at hlen

/-- The multi-exon ISM characterization loop, unfolded: with every match
already restricted to the assigned gene, the fold appends each match's
transcript ID to ISM_to_IDs, the string-prefix hits to the prefix list and
the string-suffix hits to the suffix list, and the gene is unchanged. -/
lemma ismScan_fold (s : String) (g : Nat) :
    ∀ (l : List TranscriptRec) (isml pre suf : List String),
      (∀ m ∈ l, m.gene_ID = g) →
      l.foldl (ismScanStep s) (isml, pre, suf, g) =
        (isml ++ l.map (fun m => toString m.transcript_ID),
         pre ++ (l.filter (fun m => pyStartsWith (m.jn_path.getD "") s)).map
           (fun m => toString m.transcript_ID),
         suf ++ (l.filter (fun m => pyEndsWith (m.jn_path.getD "") s)).map
           (fun m => toString m.transcript_ID),
         g) := by
  intro l
  induction l with
  | nil =>
    intro isml pre suf _
    simp
  | cons m rest ih =>
    intro isml pre suf hg
    have hmg : m.gene_ID = g := hg m (List.mem_cons.mpr (Or.inl rfl))
    have hrest : ∀ x ∈ rest, x.gene_ID = g := fun x hx =>
      hg x (List.mem_cons.mpr (Or.inr hx))
    have hstep : ismScanStep s (isml, pre, suf, g) m =
        (isml ++ [toString m.transcript_ID],
         (if pyStartsWith (m.jn_path.getD "") s then
            pre ++ [toString m.transcript_ID] else pre),
         (if pyEndsWith (m.jn_path.getD "") s then
            suf ++ [toString m.transcript_ID] else suf),
         g) := by
      simp only [ismScanStep]
      by_cases h2 : pyEndsWith (m.jn_path.getD "") s
      · simp [h2, hmg]
      · simp [h2]
    rw [List.foldl_cons, hstep]
    by_cases h1 : pyStartsWith (m.jn_path.getD "") s <;>
      by_cases h2 : pyEndsWith (m.jn_path.getD "") s <;>
      simp only [h1, h2, if_true, if_false, Bool.false_eq_true, if_neg,
        not_false_eq_true] <;>
      rw [ih _ _ _ hrest] <;>
      simp [List.filter_cons, h1, h2]

/-- C5 amended: a multi-exon read classified as ISM records
ISM_transcript=TRUE with ISM_to_IDs listing exactly the superset matches
of the ASSIGNED gene (when several genes matched, the matches are
restricted to the tie-break winner before the ISM rows are built, so
matches of the losing genes are dropped from ISM_to_IDs rather than
listed); among those kept matches, the ones whose junction path has the
read's comma-joined interior edge path as a string prefix populate
ISM-prefix_to_IDs, and the string-suffix hits populate ISM-suffix_to_IDs,
the rows being emitted for the freshly minted transcript ID. -/
theorem c5_amended (chrom : Chrom) (positions : List Int) (strand : Strand)
    (edge_IDs vertex_IDs : List Nat) (all_matches : List TranscriptRec)
    (gene_starts gene_ends : GeneLocs) (ri : RunInfo) (σ : GState)
    (g : Nat) (kept : List TranscriptRec)
    (hassign : ismAssignedGene chrom positions strand σ.tmp_t all_matches
      = some (g, kept))
    (hn : 1 < positions.length / 2) :
    ∃ out σ',
      process_ISM chrom positions strand edge_IDs vertex_IDs all_matches
        gene_starts gene_ends ri σ = (some out, σ') ∧
      out.gene_ID = g ∧
      out.transcript_ID = σ.transcript_counter + 1 ∧
      σ'.transcript_counter = σ.transcript_counter + 1 ∧
      out.novelty = ismNoveltyRows (σ.transcript_counter + 1) ri.idpfx
        (kept.map (fun m => toString m.transcript_ID))
        ((kept.filter (fun m =>
            pyStartsWith (m.jn_path.getD "") (joinComma edge_IDs))).map
          (fun m => toString m.transcript_ID))
        ((kept.filter (fun m =>
            pyEndsWith (m.jn_path.getD "") (joinComma edge_IDs))).map
          (fun m => toString m.transcript_ID)) := by
  have hgene := ismAssignedGene_gene chrom positions strand σ.tmp_t
    all_matches g kept hassign
  have hne : ¬ positions.length / 2 = 1 := by omega
  have h5st := process_5p_state chrom positions strand vertex_IDs g
    gene_starts ri σ
  have h3st := process_3p_state chrom positions strand vertex_IDs g gene_ends
    ri (process_5p chrom positions strand vertex_IDs g gene_starts ri σ).2
  have hdropl :
      (([(process_5p chrom positions strand vertex_IDs g gene_starts ri
            σ).1.exon] ++ edge_IDs ++
        [(process_3p chrom positions strand vertex_IDs g gene_ends ri
            (process_5p chrom positions strand vertex_IDs g gene_starts ri
              σ).2).1.exon]).drop 1).dropLast = edge_IDs := by
    simp
  simp only [process_ISM, hassign, if_pos hn, if_neg hne, hdropl,
    ismScan_fold (joinComma edge_IDs) g kept [] [] [] hgene,
    List.nil_append]
  refine ⟨_, _, rfl, rfl, ?_, ?_, ?_⟩
  · simp only [create_transcript]
    rw [h3st.2.1, h5st.2.1]
  · simp only [create_transcript]
    rw [h3st.2.1, h5st.2.1]
  · simp only [create_transcript]
    rw [h3st.2.1, h5st.2.1]

def c5ri : RunInfo :=
  { cutoff_5p := 50, cutoff_3p := 50, build := "b", idpfx := "T",
    n_places := 9, create_novel_spliced_genes := false }

/-- A 3-exon transcript of gene 1 whose junction path contains the query
intron 5 mid-path. -/
def c5tA : TranscriptRec :=
  { transcript_ID := 101, gene_ID := 1, jn_path := some "7,5,8",
    start_exon := 6, end_exon := 9, start_vertex := 31, end_vertex := 38,
    n_exons := 3, chromosome := "c", start_pos := 90, end_pos := 260 }

/-- A 3-exon transcript of gene 2 also containing intron 5. -/
def c5tB : TranscriptRec :=
  { transcript_ID := 102, gene_ID := 2, jn_path := some "9,5,12",
    start_exon := 16, end_exon := 19, start_vertex := 51, end_vertex := 58,
    n_exons := 3, chromosome := "c", start_pos := 400, end_pos := 600 }

/-- Both transcripts stored; gene 1 spans the read, gene 2 lies far away. -/
def c5state : GState :=
  { locations := [], edges := [],
    tdict := [([6, 7, 5, 8, 9].toFinset, c5tA),
              ([16, 9, 5, 12, 19].toFinset, c5tB)],
    tmp_t := [
      { gene_ID := 1, transcript_ID := 101, chromosome := "c",
        min_pos := 90, max_pos := 260, strand := .plus },
      { gene_ID := 2, transcript_ID := 102, chromosome := "c",
        min_pos := 400, max_pos := 600, strand := .plus }],
    tmp_gene := [], vertex_counter := 100, edge_counter := 100,
    transcript_counter := 200, gene_counter := 100 }

/-- C5 counterexample: the superset matches of the read's intron are
transcripts 101 (gene 1) and 102 (gene 2), but the ISM_to_IDs attribute of
the read names only "101": because two genes matched, process_ISM
restricts the matches to the tie-break winner (gene 1, the overlapping
one) before building ISM_to_IDs, so the claim's "ISM_to_IDs listing all
superset matches" is false. -/
theorem c5_counterexample :
    search_for_ISM [5] c5state.tdict = some [c5tA, c5tB] ∧
    c5tA.transcript_ID = 101 ∧ c5tB.transcript_ID = 102 ∧
    ((process_ISM "c" [100, 150, 200, 250] .plus [5] [21, 22] [c5tA, c5tB]
        [] [] c5ri c5state).1.map ISMOut.novelty) =
      some [(201, "T", "TALON", "ISM_transcript", "TRUE"),
            (201, "T", "TALON", "ISM_to_IDs", "101")] :=
  ⟨by decide, by decide, by decide, by decide⟩

/-- C5 witness: a single-gene instance of the amended theorem. Transcript
101 is the only match of the read's intron, the assigned gene is its gene
1, and the read's ISM rows list it with no prefix/suffix sub-labels (its
path "7,5,8" neither starts nor ends with the query path "5"). -/
theorem c5_witness :
    ∃ out σ',
      process_ISM "c" [100, 150, 200, 250] .plus [5] [21, 22] [c5tA]
          [] [] c5ri c5state = (some out, σ') ∧
      out.gene_ID = 1 ∧
      out.transcript_ID = c5state.transcript_counter + 1 ∧
      σ'.transcript_counter = c5state.transcript_counter + 1 ∧
      out.novelty = ismNoveltyRows (c5state.transcript_counter + 1)
        c5ri.idpfx
        ([c5tA].map (fun m => toString m.transcript_ID))
        (([c5tA].filter (fun m =>
            pyStartsWith (m.jn_path.getD "") (joinComma [5]))).map
          (fun m => toString m.transcript_ID))
        (([c5tA].filter (fun m =>
            pyEndsWith (m.jn_path.getD "") (joinComma [5]))).map
          (fun m => toString m.transcript_ID)) :=
  c5_amended "c" [100, 150, 200, 250] .plus [5] [21, 22] [c5tA] [] [] c5ri
    c5state 1 [c5tA] (by decide) (by decide)

end Talon

